import Mathlib

/-!
Shallow embedding of the cross-phase coordination substrate of the
GitHub-action test project: the durable key/value state store shared by the
Setup, Verify and Cleanup phase processes (`saveStates` / `restoreStates`
from `utils.js`), the command runner (`checkExec`), the warning aggregator
(`showWarning` / `checkWarnings` / `incrementWarnings`), and models of the
three phase orchestrators (`setup.js`, `verify.js`, `cleanup.js`).
-/

namespace ActionTest

/-- JavaScript values that appear in the phase `states` objects: the code
stores strings, numbers (`states.project`), booleans (`states.passed`) and
`undefined` (`states.testCache` on a cold cache). -/
inductive JsVal where
  | str (s : String)
  | num (n : Nat)
  | bool (b : Bool)
  | undef
  deriving DecidableEq, Repr

/-- Conversion applied by the host persistence API (`core.saveState`) before
storing a value: strings pass through verbatim, `null`/`undefined` become the
empty string, and every other value is JSON-serialized. -/
def toCommandValue : JsVal → String
  | .str s => s
  | .num n => toString n
  | .bool b => if b then "true" else "false"
  | .undef => ""

/-- Result of interpolating a value into a JS template string (backtick
interpolation): `undefined` renders as the text `undefined`. -/
def jsDisplay : JsVal → String
  | .str s => s
  | .num n => toString n
  | .bool b => if b then "true" else "false"
  | .undef => "undefined"

/-! ### The durable store behind core.saveState / core.getState -/

/-- Durable key/value store backing `core.saveState` / `core.getState`;
writes are prepended so the newest write for a key shadows older ones. -/
abbrev Store := List (String × String)

/-- Model of `core.saveState` (after `toCommandValue` conversion). -/
def setState (store : Store) (k v : String) : Store := (k, v) :: store

/-- First (newest) entry stored under `k`, when any. -/
def getStateOpt : Store → String → Option String
  | [], _ => none
  | (k', v) :: rest, k => if k' = k then some v else getStateOpt rest k

/-- Model of `core.getState`: a key that was never saved reads as the empty
string. -/
def getState (store : Store) (k : String) : String := (getStateOpt store k).getD ""

@[simp] theorem getStateOpt_nil (k : String) : getStateOpt [] k = none := rfl

@[simp] theorem getStateOpt_cons (k' v : String) (rest : Store) (k : String) :
    getStateOpt ((k', v) :: rest) k = if k' = k then some v else getStateOpt rest k := rfl

/-! ### JSON serialization of the reserved `keys` index entry

`saveStates` stores `JSON.stringify(Object.keys(states))` and
`restoreStates` reads it back with `JSON.parse`; these definitions model
that library pair for arrays of strings. -/

/-- Hexadecimal digit characters as produced by JSON unicode escapes. -/
def hexDigitChar (n : Nat) : Char :=
  if n < 10 then Char.ofNat (48 + n) else Char.ofNat (87 + n)

/-- Escaping of one character inside a JSON string literal, as performed by
`JSON.stringify`. -/
def escapeChar (c : Char) : List Char :=
  if c = '\"' then ['\\', '\"']
  else if c = '\\' then ['\\', '\\']
  else if c = Char.ofNat 8 then ['\\', 'b']
  else if c = Char.ofNat 9 then ['\\', 't']
  else if c = Char.ofNat 10 then ['\\', 'n']
  else if c = Char.ofNat 12 then ['\\', 'f']
  else if c = Char.ofNat 13 then ['\\', 'r']
  else if c.toNat < 32 then
    ['\\', 'u', '0', '0', hexDigitChar (c.toNat / 16), hexDigitChar (c.toNat % 16)]
  else [c]

/-- Escaped body of a JSON string literal. -/
def encodeStringChars : List Char → List Char
  | [] => []
  | c :: cs => escapeChar c ++ encodeStringChars cs

/-- One JSON string literal, quotes included. -/
def encodeJsonString (s : String) : List Char :=
  '\"' :: (encodeStringChars s.data ++ ['\"'])

/-- Comma-separated JSON string literals (the inside of the array). -/
def encodeElems : List String → List Char
  | [] => []
  | [s] => encodeJsonString s
  | s :: rest => encodeJsonString s ++ ',' :: encodeElems rest

/-- Model of `JSON.stringify` on an array of strings. -/
def encodeStrList (l : List String) : String :=
  String.mk ('[' :: (encodeElems l ++ [']']))

/-- Value of one hexadecimal digit character. -/
def decodeHexDigit (c : Char) : Option Nat :=
  if 48 ≤ c.toNat ∧ c.toNat ≤ 57 then some (c.toNat - 48)
  else if 97 ≤ c.toNat ∧ c.toNat ≤ 102 then some (c.toNat - 87)
  else none

/-- Helper prepending a decoded character to a parse result. -/
def consRes (c : Char) : Option (List Char × List Char) → Option (List Char × List Char) :=
  Option.map (fun p => (c :: p.1, p.2))

/-- Parser for the body of a JSON string literal (after the opening quote),
returning the decoded characters and the input after the closing quote. -/
def parseStringBody : List Char → Option (List Char × List Char)
  | [] => none
  | c :: rest =>
    if c = '\"' then some ([], rest)
    else if c = '\\' then
      match rest with
      | [] => none
      | e :: r0 =>
        if e = '\"' then consRes '\"' (parseStringBody r0)
        else if e = '\\' then consRes '\\' (parseStringBody r0)
        else if e = 'b' then consRes (Char.ofNat 8) (parseStringBody r0)
        else if e = 't' then consRes (Char.ofNat 9) (parseStringBody r0)
        else if e = 'n' then consRes (Char.ofNat 10) (parseStringBody r0)
        else if e = 'f' then consRes (Char.ofNat 12) (parseStringBody r0)
        else if e = 'r' then consRes (Char.ofNat 13) (parseStringBody r0)
        else if e = 'u' then
          match r0 with
          | h1 :: h2 :: h3 :: h4 :: r =>
            match decodeHexDigit h1, decodeHexDigit h2, decodeHexDigit h3, decodeHexDigit h4 with
            | some d1, some d2, some d3, some d4 =>
              consRes (Char.ofNat (((d1 * 16 + d2) * 16 + d3) * 16 + d4)) (parseStringBody r)
            | _, _, _, _ => none
          | _ => none
        else none
    else consRes c (parseStringBody rest)

/-- Parser for the elements of a JSON array of strings, consuming the
closing bracket; `fuel` bounds the number of elements. -/
def parseElems (fuel : Nat) (cs : List Char) : Option (List String × List Char) :=
  match fuel with
  | 0 => none
  | fuel' + 1 =>
    match cs with
    | '\"' :: rest =>
      match parseStringBody rest with
      | none => none
      | some (content, rest2) =>
        match rest2 with
        | ']' :: rest3 => some ([String.mk content], rest3)
        | ',' :: rest3 =>
          match parseElems fuel' rest3 with
          | none => none
          | some (elems, rest4) => some (String.mk content :: elems, rest4)
        | _ => none
    | _ => none

/-- Model of `JSON.parse` restricted to arrays of strings; `none` models a
thrown `SyntaxError`. -/
def decodeStrList (s : String) : Option (List String) :=
  match s.data with
  | '[' :: rest =>
    if rest = [']'] then some []
    else
      match parseElems rest.length rest with
      | some (l, []) => some l
      | _ => none
  | _ => none

/-! ### Round trip of the index-entry serialization -/

theorem mk_data_eq (s : String) : String.mk s.data = s := rfl

theorem decodeHexDigit_hexDigitChar (n : Nat) (h : n < 16) :
    decodeHexDigit (hexDigitChar n) = some n := by
  interval_cases n <;> decide

theorem parseStringBody_quote (rest : List Char) :
    parseStringBody ('\"' :: rest) = some ([], rest) := by
  conv_lhs => rw [parseStringBody.eq_def]
  simp

theorem parseStringBody_esc_quote (rest : List Char) :
    parseStringBody ('\\' :: '\"' :: rest) = consRes '\"' (parseStringBody rest) := by
  conv_lhs => rw [parseStringBody.eq_def]
  simp

theorem parseStringBody_esc_bslash (rest : List Char) :
    parseStringBody ('\\' :: '\\' :: rest) = consRes '\\' (parseStringBody rest) := by
  conv_lhs => rw [parseStringBody.eq_def]
  simp

theorem parseStringBody_esc_b (rest : List Char) :
    parseStringBody ('\\' :: 'b' :: rest) = consRes (Char.ofNat 8) (parseStringBody rest) := by
  conv_lhs => rw [parseStringBody.eq_def]
  simp

theorem parseStringBody_esc_t (rest : List Char) :
    parseStringBody ('\\' :: 't' :: rest) = consRes (Char.ofNat 9) (parseStringBody rest) := by
  conv_lhs => rw [parseStringBody.eq_def]
  simp

theorem parseStringBody_esc_n (rest : List Char) :
    parseStringBody ('\\' :: 'n' :: rest) = consRes (Char.ofNat 10) (parseStringBody rest) := by
  conv_lhs => rw [parseStringBody.eq_def]
  simp

theorem parseStringBody_esc_f (rest : List Char) :
    parseStringBody ('\\' :: 'f' :: rest) = consRes (Char.ofNat 12) (parseStringBody rest) := by
  conv_lhs => rw [parseStringBody.eq_def]
  simp

theorem parseStringBody_esc_r (rest : List Char) :
    parseStringBody ('\\' :: 'r' :: rest) = consRes (Char.ofNat 13) (parseStringBody rest) := by
  conv_lhs => rw [parseStringBody.eq_def]
  simp

theorem parseStringBody_esc_u (h1 h2 h3 h4 : Char) (rest : List Char) :
    parseStringBody ('\\' :: 'u' :: h1 :: h2 :: h3 :: h4 :: rest) =
      match decodeHexDigit h1, decodeHexDigit h2, decodeHexDigit h3, decodeHexDigit h4 with
      | some d1, some d2, some d3, some d4 =>
        consRes (Char.ofNat (((d1 * 16 + d2) * 16 + d3) * 16 + d4)) (parseStringBody rest)
      | _, _, _, _ => none := by
  conv_lhs => rw [parseStringBody.eq_def]
  simp

theorem parseStringBody_other (c : Char) (rest : List Char)
    (h1 : c ≠ '\"') (h2 : c ≠ '\\') :
    parseStringBody (c :: rest) = consRes c (parseStringBody rest) := by
  conv_lhs => rw [parseStringBody.eq_def]
  simp [h1, h2]

theorem parseStringBody_encode (s : List Char) (rest : List Char) :
    parseStringBody (encodeStringChars s ++ '\"' :: rest) = some (s, rest) := by
  induction s generalizing rest with
  | nil => simpa [encodeStringChars] using parseStringBody_quote rest
  | cons c cs ih =>
    rw [encodeStringChars, List.append_assoc]
    by_cases h1 : c = '\"'
    · subst h1
      rw [show escapeChar '\"' = ['\\', '\"'] from rfl]
      simp [parseStringBody_esc_quote, consRes, ih]
    by_cases h2 : c = '\\'
    · subst h2
      rw [show escapeChar '\\' = ['\\', '\\'] from rfl]
      simp [parseStringBody_esc_bslash, consRes, ih]
    by_cases hb : c = Char.ofNat 8
    · subst hb
      rw [show escapeChar (Char.ofNat 8) = ['\\', 'b'] from rfl]
      simp [parseStringBody_esc_b, consRes, ih]
    by_cases ht : c = Char.ofNat 9
    · subst ht
      rw [show escapeChar (Char.ofNat 9) = ['\\', 't'] from rfl]
      simp [parseStringBody_esc_t, consRes, ih]
    by_cases hn : c = Char.ofNat 10
    · subst hn
      rw [show escapeChar (Char.ofNat 10) = ['\\', 'n'] from rfl]
      simp [parseStringBody_esc_n, consRes, ih]
    by_cases hf : c = Char.ofNat 12
    · subst hf
      rw [show escapeChar (Char.ofNat 12) = ['\\', 'f'] from rfl]
      simp [parseStringBody_esc_f, consRes, ih]
    by_cases hr : c = Char.ofNat 13
    · subst hr
      rw [show escapeChar (Char.ofNat 13) = ['\\', 'r'] from rfl]
      simp [parseStringBody_esc_r, consRes, ih]
    by_cases hc : c.toNat < 32
    · have hesc : escapeChar c =
          ['\\', 'u', '0', '0', hexDigitChar (c.toNat / 16), hexDigitChar (c.toNat % 16)] := by
        rw [escapeChar, if_neg h1, if_neg h2, if_neg hb, if_neg ht, if_neg hn, if_neg hf,
          if_neg hr, if_pos hc]
      rw [hesc]
      simp only [List.cons_append, List.nil_append]
      rw [parseStringBody_esc_u]
      have hd1 : decodeHexDigit '0' = some 0 := by decide
      have hdiv : decodeHexDigit (hexDigitChar (c.toNat / 16)) = some (c.toNat / 16) :=
        decodeHexDigit_hexDigitChar _ (by omega)
      have hmod : decodeHexDigit (hexDigitChar (c.toNat % 16)) = some (c.toNat % 16) :=
        decodeHexDigit_hexDigitChar _ (by omega)
      rw [hd1, hdiv, hmod]
      have hval : ((0 * 16 + 0) * 16 + c.toNat / 16) * 16 + c.toNat % 16 = c.toNat := by omega
      simp only [hval, Char.ofNat_toNat, ih, consRes]
      rfl
    · have hesc : escapeChar c = [c] := by
        rw [escapeChar, if_neg h1, if_neg h2, if_neg hb, if_neg ht, if_neg hn, if_neg hf,
          if_neg hr, if_neg hc]
      rw [hesc]
      simp only [List.cons_append, List.nil_append]
      rw [parseStringBody_other c _ h1 h2, ih]
      simp [consRes]

theorem parseElems_succ_quote (fuel : Nat) (rest : List Char) :
    parseElems (fuel + 1) ('\"' :: rest) =
      match parseStringBody rest with
      | none => none
      | some (content, rest2) =>
        match rest2 with
        | ']' :: rest3 => some ([String.mk content], rest3)
        | ',' :: rest3 =>
          (match parseElems fuel rest3 with
           | none => none
           | some (elems, rest4) => some (String.mk content :: elems, rest4))
        | _ => none := rfl

theorem parseElems_encode (l : List String) :
    ∀ (s : String) (rest : List Char) (fuel : Nat), (s :: l).length ≤ fuel + 1 →
    parseElems (fuel + 1) (encodeElems (s :: l) ++ ']' :: rest) = some (s :: l, rest) := by
  induction l with
  | nil =>
    intro s rest fuel _
    rw [encodeElems, encodeJsonString]
    simp only [List.cons_append, List.append_assoc, List.nil_append]
    rw [parseElems_succ_quote, parseStringBody_encode]
    simp [mk_data_eq]
  | cons s' l' ih =>
    intro s rest fuel hf
    match fuel, hf with
    | fuel' + 1, hf =>
      rw [encodeElems, encodeJsonString]
      case x_1 => exact fun h => by simp at h
      simp only [List.cons_append, List.append_assoc, List.nil_append]
      rw [parseElems_succ_quote, parseStringBody_encode]
      have := ih s' rest fuel' (by simpa using Nat.le_of_succ_le_succ hf)
      simp [this, mk_data_eq]

theorem encodeJsonString_length (s : String) : 2 ≤ (encodeJsonString s).length := by
  rw [encodeJsonString]
  simp

theorem encodeElems_head (s : String) (l : List String) :
    ∃ t, encodeElems (s :: l) = '\"' :: t := by
  cases l with
  | nil => exact ⟨_, rfl⟩
  | cons s' l' => exact ⟨_, rfl⟩

theorem encodeElems_length (s : String) (l : List String) :
    (s :: l).length ≤ (encodeElems (s :: l)).length := by
  induction l generalizing s with
  | nil =>
    rw [encodeElems]
    have := encodeJsonString_length s
    simp only [List.length_cons, List.length_nil]
    omega
  | cons s' l' ih =>
    rw [encodeElems]
    case x_1 => exact fun h => by simp at h
    have h1 := encodeJsonString_length s
    have h2 := ih s'
    simp only [List.length_cons, List.length_append] at *
    omega

theorem decodeStrList_encodeStrList (l : List String) :
    decodeStrList (encodeStrList l) = some l := by
  cases l with
  | nil => rfl
  | cons s l' =>
    obtain ⟨t, ht⟩ := encodeElems_head s l'
    obtain ⟨fuel, hfuel⟩ : ∃ fuel, (encodeElems (s :: l') ++ [']']).length = fuel + 1 :=
      ⟨(encodeElems (s :: l')).length, by simp⟩
    have hfb : (s :: l').length ≤ fuel + 1 := by
      have h1 := encodeElems_length s l'
      have h2 : (encodeElems (s :: l') ++ [']']).length = (encodeElems (s :: l')).length + 1 := by
        simp
      omega
    have hparse : parseElems ((encodeElems (s :: l') ++ [']']).length)
        (encodeElems (s :: l') ++ [']']) = some (s :: l', []) := by
      rw [hfuel]
      simpa using parseElems_encode l' s [] fuel hfb
    have hne : ¬(encodeElems (s :: l') ++ [']'] = [']']) := by
      rw [ht]; simp
    have hdata : (encodeStrList (s :: l')).data = '[' :: (encodeElems (s :: l') ++ [']']) := rfl
    conv_lhs => rw [decodeStrList.eq_def]
    rw [hdata]
    simp only [if_neg hne, hparse]

/-! ### The phase `states` object and the State Store pair -/

/-- Insertion-ordered JS object holding the phase's `states`. -/
abbrev States := List (String × JsVal)

/-- Property read `states[k]`; `none` models `undefined`. -/
def lookupKey : States → String → Option JsVal
  | [], _ => none
  | (k', v) :: rest, k => if k' = k then some v else lookupKey rest k

/-- Model of the JS `k in states` membership test. -/
def containsKey (m : States) (k : String) : Bool := (lookupKey m k).isSome

/-- Property assignment `states[k] = v`: overwrite in place, else append. -/
def setKey : States → String → JsVal → States
  | [], k, v => [(k, v)]
  | (k', v') :: rest, k, v =>
    if k' = k then (k', v) :: rest else (k', v') :: setKey rest k v

@[simp] theorem lookupKey_nil (k : String) : lookupKey [] k = none := rfl

@[simp] theorem lookupKey_cons (k' : String) (v : JsVal) (rest : States) (k : String) :
    lookupKey ((k', v) :: rest) k = if k' = k then some v else lookupKey rest k := rfl

/-- Model of `utils.saveStates`: every entry is persisted under its own key
(after `toCommandValue` conversion), then the reserved index entry `keys`
records the JSON-serialized key list. -/
def saveStates (states : States) (store : Store) : Store :=
  setState (states.foldl (fun st p => setState st p.1 (toCommandValue p.2)) store)
    "keys" (encodeStrList (states.map Prod.fst))

/-- Model of `utils.restoreStates`: reads the index entry; a falsy (absent or
empty) index restores nothing and returns the mapping unchanged; otherwise
every listed key is read back and merged into the caller-supplied mapping.
The `none` result models a `JSON.parse` exception escaping the call. -/
def restoreStates (store : Store) (states : States) : Option States :=
  if getState store "keys" = "" then some states
  else
    match decodeStrList (getState store "keys") with
    | none => none
    | some keys =>
      some (keys.foldl (fun m k => setKey m k (.str (getState store k))) states)

theorem getStateOpt_foldl_not_mem (S : States) (base : Store) (k : String)
    (h : k ∉ S.map Prod.fst) :
    getStateOpt (S.foldl (fun st p => setState st p.1 (toCommandValue p.2)) base) k =
      getStateOpt base k := by
  induction S generalizing base with
  | nil => rfl
  | cons p S' ih =>
    simp only [List.map_cons, List.mem_cons, not_or] at h
    rw [List.foldl_cons, ih _ h.2]
    have h1 : ¬(p.1 = k) := fun hh => h.1 hh.symm
    simp [setState, h1]

theorem getStateOpt_foldl_mem (S : States) (base : Store) (k : String) (v : JsVal)
    (hnd : (S.map Prod.fst).Nodup) (hmem : (k, v) ∈ S) :
    getStateOpt (S.foldl (fun st p => setState st p.1 (toCommandValue p.2)) base) k =
      some (toCommandValue v) := by
  induction S generalizing base with
  | nil => simp at hmem
  | cons p S' ih =>
    simp only [List.map_cons, List.nodup_cons] at hnd
    rcases List.mem_cons.mp hmem with hp | hmem'
    · subst hp
      rw [List.foldl_cons, getStateOpt_foldl_not_mem S' _ k hnd.1]
      simp [setState]
    · exact ih _ hnd.2 hmem'

theorem getStateOpt_saveStates_keys (S : States) (base : Store) :
    getStateOpt (saveStates S base) "keys" = some (encodeStrList (S.map Prod.fst)) := by
  simp [saveStates, setState]

theorem getStateOpt_saveStates_ne (S : States) (base : Store) (k : String) (h : k ≠ "keys") :
    getStateOpt (saveStates S base) k =
      getStateOpt (S.foldl (fun st p => setState st p.1 (toCommandValue p.2)) base) k := by
  have h1 : ¬("keys" = k) := fun hh => h hh.symm
  simp [saveStates, setState, h1]

theorem encodeStrList_ne_empty (l : List String) : encodeStrList l ≠ "" := by
  intro h
  have := congrArg String.data h
  simp [encodeStrList] at this

theorem getState_saveStates_mem (S : States) (base : Store) (k : String) (v : JsVal)
    (hnd : (S.map Prod.fst).Nodup) (hk : k ≠ "keys") (hmem : (k, v) ∈ S) :
    getState (saveStates S base) k = toCommandValue v := by
  rw [getState, getStateOpt_saveStates_ne S base k hk, getStateOpt_foldl_mem S base k v hnd hmem]
  rfl

theorem foldl_setKey_eq (S : States) (g : String → String) (m0 : States)
    (H : ∀ p ∈ S, g p.1 = toCommandValue p.2) :
    (S.map Prod.fst).foldl (fun m k => setKey m k (.str (g k))) m0 =
      S.foldl (fun m p => setKey m p.1 (.str (toCommandValue p.2))) m0 := by
  induction S generalizing m0 with
  | nil => rfl
  | cons p S' ih =>
    simp only [List.map_cons, List.foldl_cons]
    rw [H p (List.mem_cons_self p S')]
    exact ih _ fun q hq => H q (List.mem_cons_of_mem p hq)

/-- Central inversion property: restoring from a store just written by
`saveStates` merges exactly the saved entries (serialized to strings) into
the caller's mapping, provided the saved keys are distinct and none of them
collides with the reserved index key. -/
theorem restoreStates_saveStates (S : States) (base : Store) (m0 : States)
    (hnd : (S.map Prod.fst).Nodup) (hk : "keys" ∉ S.map Prod.fst) :
    restoreStates (saveStates S base) m0 =
      some (S.foldl (fun m p => setKey m p.1 (.str (toCommandValue p.2))) m0) := by
  have hks : getState (saveStates S base) "keys" = encodeStrList (S.map Prod.fst) := by
    rw [getState, getStateOpt_saveStates_keys]; rfl
  rw [restoreStates, hks, if_neg (encodeStrList_ne_empty _), decodeStrList_encodeStrList]
  refine congrArg some ?_
  refine foldl_setKey_eq S _ m0 fun p hp => ?_
  have hpk : p.1 ≠ "keys" := fun h => hk (h ▸ List.mem_map_of_mem Prod.fst hp)
  exact getState_saveStates_mem S base p.1 p.2 hnd hpk (by simpa using hp)

theorem setKey_not_mem (m : States) (k : String) (v : JsVal) (h : k ∉ m.map Prod.fst) :
    setKey m k v = m ++ [(k, v)] := by
  induction m with
  | nil => rfl
  | cons p m' ih =>
    simp only [List.map_cons, List.mem_cons, not_or] at h
    have h1 : ¬(p.1 = k) := fun hh => h.1 hh.symm
    rw [setKey, if_neg h1, ih h.2]
    rfl

theorem map_fst_setKey_not_mem (m : States) (k : String) (v : JsVal)
    (h : k ∉ m.map Prod.fst) :
    (setKey m k v).map Prod.fst = m.map Prod.fst ++ [k] := by
  rw [setKey_not_mem m k v h]
  simp

theorem foldl_setKey_append (S : States) (acc : States)
    (hnd : (S.map Prod.fst).Nodup)
    (hdisj : ∀ k ∈ S.map Prod.fst, k ∉ acc.map Prod.fst) :
    S.foldl (fun m p => setKey m p.1 (.str (toCommandValue p.2))) acc =
      acc ++ S.map (fun p => (p.1, JsVal.str (toCommandValue p.2))) := by
  induction S generalizing acc with
  | nil => simp
  | cons p S' ih =>
    simp only [List.map_cons, List.nodup_cons] at hnd
    have hp : p.1 ∉ acc.map Prod.fst := hdisj p.1 (by simp)
    rw [List.foldl_cons, setKey_not_mem acc p.1 _ hp, ih _ hnd.2 ?_]
    · simp
    · intro k hkS
      rw [List.map_append]
      simp only [List.mem_append, not_or]
      refine ⟨hdisj k (by simp [hkS]), ?_⟩
      simp only [List.map_cons, List.map_nil, List.mem_singleton]
      exact fun h => hnd.1 (h ▸ hkS)

/-- Serialization of a string-to-string mapping into a `states` object. -/
def strStates (M : List (String × String)) : States :=
  M.map fun p => (p.1, JsVal.str p.2)

theorem restore_save_strStates (M : List (String × String))
    (hnd : (M.map Prod.fst).Nodup) (hk : "keys" ∉ M.map Prod.fst) :
    restoreStates (saveStates (strStates M) []) [] = some (strStates M) := by
  have hmap : (strStates M).map Prod.fst = M.map Prod.fst := by
    simp [strStates]
  rw [restoreStates_saveStates (strStates M) [] [] (by rw [hmap]; exact hnd)
    (by rw [hmap]; exact hk)]
  rw [foldl_setKey_append (strStates M) [] (by rw [hmap]; exact hnd) (by simp)]
  simp [strStates, toCommandValue]

theorem lookupKey_setKey_ne (m : States) (k' k : String) (v : JsVal) (h : k' ≠ k) :
    lookupKey (setKey m k' v) k = lookupKey m k := by
  induction m with
  | nil => simp [setKey, h]
  | cons p m' ih =>
    obtain ⟨pk, pv⟩ := p
    by_cases hp : pk = k'
    · rw [setKey, if_pos hp]
      subst hp
      simp [h]
    · rw [setKey, if_neg hp]
      simp [ih]

theorem lookupKey_foldl_setKey (keys : List String) (m : States) (f : String → JsVal)
    (k : String) (h : k ∉ keys) :
    lookupKey (keys.foldl (fun acc k' => setKey acc k' (f k')) m) k = lookupKey m k := by
  induction keys generalizing m with
  | nil => rfl
  | cons k' keys' ih =>
    simp only [List.mem_cons, not_or] at h
    rw [List.foldl_cons, ih _ h.2, lookupKey_setKey_ne m k' k _ (fun he => h.1 he.symm)]

/-! ### Command runner -/

/-- Settings object accepted by `utils.checkExec`; absent JS properties are
modelled by `none`. -/
structure ExecSettings where
  param : Option (List String) := none
  title : Option String := none
  error : Option String := none
  chdir : Option String := none
  deriving DecidableEq, Repr

/-- Argument list actually passed to the child process: the `param` setting
when present, else the empty list (bare command invocation). -/
def effectiveParam (settings : ExecSettings) : List String := settings.param.getD []

/-- Model of `utils.checkExec`: the child process runs with
`ignoreReturnCode` set, so `exec` itself never fails; afterwards, when an
`error` message was supplied and the exit code is non-zero, an error whose
message is the supplied text followed by the parenthesized code is thrown;
otherwise the raw exit code is returned. -/
def checkExec (command : String) (settings : ExecSettings) (exitCode : Nat) :
    Except String Nat :=
  match settings.error with
  | some msg =>
    if exitCode ≠ 0 then .error (msg ++ " (" ++ toString exitCode ++ ").")
    else .ok exitCode
  | none => .ok exitCode

/-! ### Warning aggregator -/

/-- Module-level mutable state of `utils.js` within one phase process. -/
structure ModuleState where
  warnings : Nat
  deriving DecidableEq, Repr

/-- State of the `utils.js` module when a phase process loads it:
`exports.warnings = 0`. -/
def moduleInit : ModuleState := ⟨0⟩

/-- Model of `utils.showWarning`: styles and logs the message and increments
the in-process counter `exports.warnings`; the durable store is not touched. -/
def showWarning (ms : ModuleState) : ModuleState := ⟨ms.warnings + 1⟩

/-- Model of `utils.checkWarnings`: reads the in-process counter and, when
positive, emits one pluralized summary line naming the phase. -/
def checkWarnings (warnings : Nat) (phase : String) : Option String :=
  if warnings > 1 then
    some ("There were " ++ toString warnings ++ " warnings in the " ++ phase ++
      " phase. View the run log for details.")
  else if warnings == 1 then
    some ("There was " ++ toString warnings ++ " warning in the " ++ phase ++
      " phase. View the run log for details.")
  else none

/-- Decimal reading of a stored counter, standing in for `parseInt` on the
canonical decimal strings this code writes. -/
def jsParseInt (s : String) : Option Nat := s.toNat?

/-- Model of `utils.incrementWarnings`, the durable counter variant kept in
`utils.js`: reads the stored count, adds one (starting from 1 when the entry
is falsy) and stores it back. No phase ever calls it. -/
def incrementWarnings (store : Store) : Store :=
  if getState store "warnings" ≠ "" then
    setState store "warnings" (toString ((jsParseInt (getState store "warnings")).getD 0 + 1))
  else
    setState store "warnings" (toString 1)

/-! ### Claim C3: state-store round trip -/

/-- Claim C3 (amended): for every string-to-string mapping M with distinct
keys, none of which is the reserved index key `keys`, restoring after saving
into an empty mapping reconstructs M exactly, including when M is empty. -/
theorem claim_C3 (M : List (String × String))
    (hnd : (M.map Prod.fst).Nodup) (hk : "keys" ∉ M.map Prod.fst) :
    restoreStates (saveStates (strStates M) []) [] = some (strStates M) := by
  have hmap : (strStates M).map Prod.fst = M.map Prod.fst := by simp [strStates]
  rw [restoreStates_saveStates (strStates M) [] [] (by rw [hmap]; exact hnd)
    (by rw [hmap]; exact hk)]
  rw [foldl_setKey_append (strStates M) [] (by rw [hmap]; exact hnd) (by simp)]
  simp [strStates, toCommandValue]

/-- Witness for C3: the round trip evaluated at a concrete two-entry mapping
and at the empty mapping. -/
theorem claim_C3_witness :
    restoreStates (saveStates (strStates [("project", "1"), ("version", "v1.0.0")]) []) [] =
      some (strStates [("project", "1"), ("version", "v1.0.0")]) ∧
    restoreStates (saveStates (strStates []) []) [] = some (strStates []) :=
  ⟨claim_C3 [("project", "1"), ("version", "v1.0.0")] (by decide) (by decide),
   claim_C3 [] (by decide) (by decide)⟩

/-- Counterexample for C3 as frozen: a mapping that uses the reserved index
key `keys` is not reconstructed, because `saveStates` overwrites that entry
with the serialized key list. -/
theorem claim_C3_counterexample :
    restoreStates (saveStates (strStates [("keys", "foo")]) []) [] ≠
      some (strStates [("keys", "foo")]) := by
  decide

/-! ### Claim C9: restoreStates merges into the caller-supplied mapping -/

/-- Claim C9: restoreStates returns the caller-supplied mapping unchanged
when the index entry is absent, and every key of the mapping that is not
listed in the decoded index entry keeps its prior value. -/
theorem claim_C9 (store : Store) (m : States) :
    (getStateOpt store "keys" = none → restoreStates store m = some m) ∧
    (∀ keys m' k v, decodeStrList (getState store "keys") = some keys →
      restoreStates store m = some m' → k ∉ keys → lookupKey m k = some v →
      lookupKey m' k = some v) := by
  constructor
  · intro h
    rw [restoreStates, if_pos (by rw [getState, h]; rfl)]
  · intro keys m' k v hdec hres hk hlook
    by_cases hemp : getState store "keys" = ""
    · rw [restoreStates, if_pos hemp] at hres
      cases hres
      exact hlook
    · rw [restoreStates, if_neg hemp, hdec] at hres
      cases hres
      rw [lookupKey_foldl_setKey keys m _ k hk]
      exact hlook

/-- Witness for C9: absent index leaves the mapping unchanged; a key not in
the restored index keeps its prior value. -/
theorem claim_C9_witness :
    restoreStates [("x", "1")] [("b", JsVal.str "y")] = some [("b", JsVal.str "y")] ∧
    lookupKey [("b", JsVal.str "y"), ("c", JsVal.str "z")] "b" = some (JsVal.str "y") :=
  ⟨(claim_C9 [("x", "1")] [("b", JsVal.str "y")]).1 (by decide),
   (claim_C9 (saveStates (strStates [("c", "z")]) []) [("b", JsVal.str "y")]).2
     ["c"] [("b", JsVal.str "y"), ("c", JsVal.str "z")] "b" (JsVal.str "y")
     (by decide) (by decide) (by decide) (by decide)⟩

/-! ### Claim C8: command runner contract -/

/-- Claim C8: checkExec never throws on a non-zero exit when no error message
is supplied and returns the raw exit code (the argument list, including the
empty one, plays no role in the outcome); when an error message is supplied
and the exit is non-zero, it throws a message containing the supplied text
and the numeric exit code. -/
theorem claim_C8 (command : String) (settings : ExecSettings) (exitCode : Nat) :
    (settings.error = none → checkExec command settings exitCode = .ok exitCode) ∧
    (∀ msg, settings.error = some msg → exitCode ≠ 0 →
      checkExec command settings exitCode =
        .error (msg ++ " (" ++ toString exitCode ++ ").") ∧
      msg.data <:+: (msg ++ " (" ++ toString exitCode ++ ").").data ∧
      (toString exitCode).data <:+: (msg ++ " (" ++ toString exitCode ++ ").").data) ∧
    effectiveParam { settings with param := some [] } = [] := by
  refine ⟨fun h => by rw [checkExec, h], fun msg h hne => ⟨?_, ?_, ?_⟩, rfl⟩
  · rw [checkExec, h]
    simp [hne]
  · refine ⟨[], (" (" ++ toString exitCode ++ ").").data, ?_⟩
    simp [String.data_append]
  · refine ⟨(msg ++ " (").data, (").").data, ?_⟩
    simp [String.data_append]

/-- Witness for C8: a concrete informational run and a concrete fatal run. -/
theorem claim_C8_witness :
    checkExec "git" { } 5 = Except.ok 5 ∧
    checkExec "mvn" { error := some "Unable to generate reports" } 2 =
      .error ("Unable to generate reports" ++ " (" ++ toString 2 ++ ").") ∧
    ("Unable to generate reports").data <:+:
      ("Unable to generate reports" ++ " (" ++ toString 2 ++ ").").data :=
  ⟨(claim_C8 "git" { } 5).1 rfl,
   ((claim_C8 "mvn" { error := some "Unable to generate reports" } 2).2.1
      "Unable to generate reports" rfl (by decide)).1,
   ((claim_C8 "mvn" { error := some "Unable to generate reports" } 2).2.1
      "Unable to generate reports" rfl (by decide)).2.1⟩

/-! ### Phase processes: events, context and traces -/

/-- Fixed directory names exported by `utils.js`. -/
def mainDir : String := "project-main"

/-- Name of the test repository checkout, which must match the repository
name (`exports.testDir`). -/
def testDir : String := "project-tests"

/-- Observable actions of one phase process, in execution order. -/
inductive PhaseEvent where
  | exec (site : String) (exit : Nat)
  | upload (site : String)
  | warning (msg : String)
  | stateSaved
  | cacheRestore (result : Option String)
  | cacheSave (key : String)
  | summary (label : String) (count : Nat)
  | failedMark (msg : String)
  deriving DecidableEq, Repr

/-- Accumulated in-process context while a phase runs: the event log, the
`states` object, the durable store and the module-level warning counter
(zero when the process loads `utils.js`). -/
structure Ctx where
  events : List PhaseEvent := []
  states : States := []
  store : Store
  warnings : Nat := 0
  deriving DecidableEq, Repr

/-- Appends one event to the log. -/
def emit (c : Ctx) (e : PhaseEvent) : Ctx := { c with events := c.events ++ [e] }

/-- One `checkExec` call at a named call site: the child process runs (the
exit code is part of the environment), then the result is checked. -/
def execStep (c : Ctx) (site command : String) (settings : ExecSettings) (exit : Nat) :
    Ctx × Except String Nat :=
  (emit c (.exec site exit), checkExec command settings exit)

/-- One `utils.showWarning` call: logs the message and increments the
in-process counter. -/
def warnStep (c : Ctx) (msg : String) : Ctx :=
  { c with events := c.events ++ [.warning msg], warnings := c.warnings + 1 }

/-- One `utils.saveStates` call. -/
def saveStep (c : Ctx) : Ctx :=
  { c with store := saveStates c.states c.store, events := c.events ++ [.stateSaved] }

/-- One `utils.checkWarnings` call: reads the in-process counter. -/
def summaryStep (c : Ctx) (label : String) : Ctx := emit c (.summary label c.warnings)

/-- Final observable trace of one phase process. -/
structure PhaseTrace where
  events : List PhaseEvent
  states : States
  store : Store
  warnings : Nat
  failed : Bool
  deriving DecidableEq, Repr

/-- Tests whether some checkExec call site appears in the trace. -/
def hasExecSite (t : PhaseTrace) (site : String) : Bool :=
  t.events.any fun e =>
    match e with
    | .exec s _ => s = site
    | _ => false

/-- Context threaded through a phase try-block together with the thrown
error message when a step failed fatally. -/
abbrev BodyResult := Ctx × Option String

/-- Sequencing inside a try-block: a thrown error skips the rest. -/
def BodyResult.andThen (r : BodyResult) (f : Ctx → BodyResult) : BodyResult :=
  match r with
  | (c, some msg) => (c, some msg)
  | (c, none) => f c

/-- One fatal-capable checkExec step inside a try-block. -/
def stepThrow (c : Ctx) (site command : String) (settings : ExecSettings) (exit : Nat) :
    BodyResult :=
  match execStep c site command settings exit with
  | (c', .error msg) => (c', some msg)
  | (c', .ok _) => (c', none)

/-! ### Setup phase (setup.js) -/

/-- Digit-string value, as captured by the `\d+` groups of the version
regex. -/
def digitsToNat (cs : List Char) : Nat :=
  cs.foldl (fun acc c => acc * 10 + (c.toNat - 48)) 0

/-- Model of matching `^v([1-4])\.(\d+)\.(\d+)$` against the version string,
returning the three captured groups as numbers. -/
def matchVersion (s : String) : Option (Nat × Nat × Nat) :=
  match s.data with
  | 'v' :: d :: '.' :: rest =>
    if d = '1' ∨ d = '2' ∨ d = '3' ∨ d = '4' then
      let minorDigits := rest.takeWhile Char.isDigit
      match rest.drop minorDigits.length with
      | '.' :: patchDigits =>
        if minorDigits ≠ [] ∧ patchDigits ≠ [] ∧ patchDigits.all Char.isDigit then
          some (d.toNat - 48, digitsToNat minorDigits, digitsToNat patchDigits)
        else none
      | _ => none
    else none
  | _ => none

/-- Project identifiers accepted from the `project` input. -/
def validProjects : List String := ["1", "2", "3a", "3b", "4"]

/-- Version token extracted from the workflow ref: the last token of
`ref.split(slash)`, i.e. the text after the last slash (the whole ref when
no slash occurs). -/
def versionOf (ref : String) : String :=
  String.mk (ref.data.foldl (fun acc c => if c = '/' then [] else acc ++ [c]) [])

/-- Model of the project-details resolution in setup.js: a matching release
version decides the project number (3 splits into 3a/3b by minor version);
on no match a valid user-supplied `project` input is accepted; otherwise the
step throws. -/
def parseProject (version : String) (projectInput : String) : Except String JsVal :=
  match matchVersion version with
  | some (major, minor, _) =>
    if major = 3 then .ok (.str (if minor = 0 then "3a" else "3b"))
    else .ok (.num major)
  | none =>
    if validProjects.contains projectInput then .ok (.str projectInput)
    else .error ("Unable to determine project from " ++ version ++
      " or user input. Double check release is properly named (with a lowercase \"v\" at the start).")

/-- JS truthiness of the cache-restore result: falsy when `undefined` or the
empty string. -/
def jsFalsyCache : Option String → Bool
  | none => true
  | some s => s = ""

/-- External inputs and step outcomes consumed by the Setup phase: workflow
context, the secret token, child-process exit codes, the latest-commit API
result and the cache-restore result. -/
structure SetupEnv where
  owner : String
  repo : String
  ref : String
  token : String
  projectInput : String
  mainCloneExit : Nat
  mainLsExit : Nat
  commits : Except String String
  cacheResult : Option String
  statusExit : Nat
  pullExit : Nat
  testCloneExit : Nat
  testLsExit : Nat
  dirLsExit : Nat
  deriving Repr

/-- Model of the try-block of setup.js `run`: project details, main clone,
test-cache probing with incremental pull, cold-cache warning and full clone,
directory listing, then `saveStates`. -/
def setupBody (env : SetupEnv) (c0 : Ctx) : BodyResult :=
  let version := versionOf env.ref
  let st0 :=
    setKey (setKey (setKey (setKey c0.states
      "owner" (.str env.owner))
      "mainRepo" (.str (env.owner ++ "/" ++ env.repo)))
      "testRepo" (.str (env.owner ++ "/" ++ testDir)))
      "project" (.str "*")
  let c := { c0 with states := st0 }
  match parseProject version env.projectInput with
  | .error msg => (c, some msg)
  | .ok projVal =>
    let st1 :=
      setKey (setKey (setKey c.states
        "project" projVal)
        "version" (.str version))
        "tester" (.str ("Project" ++ jsDisplay projVal ++ "Test*"))
    let c := { c with states := st1 }
    (stepThrow c "mainClone" "git"
      { param := some ["clone", "--depth", "1", "-c", "advice.detachedHead=false",
          "--no-tags", "--branch", version,
          "https://github-actions:" ++ env.token ++ "@github.com/" ++ env.owner ++ "/" ++ env.repo,
          mainDir],
        title := some ("Cloning " ++ version),
        error := some ("Failed cloning " ++ env.owner ++ "/" ++ env.repo ++ " repository") }
      env.mainCloneExit).andThen fun c =>
    (stepThrow c "mainLs" "ls"
      { param := some ["-m", mainDir ++ "/src/main/java"],
        title := some "Listing project main code",
        error := some "Unable to list main directory" }
      env.mainLsExit).andThen fun c =>
    match env.commits with
    | .error emsg => (c, some ("Unable to list " ++ testDir ++ " commits (" ++ emsg ++ ")."))
    | .ok sha =>
      let testKey := testDir ++ "-" ++ sha
      let c := { c with states := setKey c.states "testKey" (.str testKey) }
      let c := emit c (.cacheRestore env.cacheResult)
      let cacheVal := match env.cacheResult with | some s => JsVal.str s | none => JsVal.undef
      let c := { c with states := setKey c.states "testCache" cacheVal }
      (match env.cacheResult with
       | some cacheKey =>
         if cacheKey ≠ testKey then
           (stepThrow c "gitStatus" "git"
             { param := some ["status"],
               title := some ("Checking " ++ testDir ++ " git status"),
               error := some ("Unable to check " ++ testDir ++ " git status"),
               chdir := some (testDir ++ "/") }
             env.statusExit).andThen fun c =>
           stepThrow c "gitPull" "git"
             { param := some ["pull", "--ff-only"],
               title := some ("Pulling latest " ++ testDir ++ " version"),
               error := some ("Unable to pull latest " ++ testDir ++ " version"),
               chdir := some (testDir ++ "/") }
             env.pullExit
         else (c, none)
       | none => (c, none)).andThen fun c =>
      let c := if jsFalsyCache env.cacheResult then
          warnStep c ("Unable to restore cache: " ++ testKey)
        else c
      (match env.cacheResult with
       | none =>
         (stepThrow c "testClone" "git"
           { param := some ["clone", "--depth", "1", "--no-tags",
               "https://github-actions:" ++ env.token ++ "@github.com/" ++ env.owner ++ "/" ++ testDir,
               testDir],
             title := some ("Cloning into " ++ testDir),
             error := some ("Failed cloning " ++ env.owner ++ "/" ++ testDir ++ " repository") }
           env.testCloneExit).andThen fun c =>
         stepThrow c "testLs" "ls"
           { param := some ["-m", testDir ++ "/src/test/java"],
             title := some "Listing project test code",
             error := some "Unable to list test directory" }
           env.testLsExit
       | some _ => (c, none)).andThen fun c =>
      stepThrow c "dirLs" "ls"
        { param := some ["-Rm", "."],
          title := some "Listing project directory",
          error := some "Unable to list project directory" }
        env.dirLsExit

/-- Warning-summary label used by the Setup phase. -/
def preLabel : String := "\"Pre Test Project\""

/-- Model of setup.js `run`: the try-block, the catch that marks the run
failed, and the finally that logs and summarizes warnings. `saveStates` runs
only as the last statement of the try-block. -/
def setupRun (env : SetupEnv) (store0 : Store) : PhaseTrace :=
  match setupBody env { store := store0 } with
  | (c, none) =>
    let c := summaryStep (saveStep c) preLabel
    ⟨c.events, c.states, c.store, c.warnings, false⟩
  | (c, some msg) =>
    let c := summaryStep (emit c (.failedMark ("Setup failed. " ++ msg))) preLabel
    ⟨c.events, c.states, c.store, c.warnings, true⟩

/-! ### Claim C6: invalid version and project input abort Setup before cloning -/

/-- Claim C6: when the version string does not match the release pattern and
the `project` input is not a valid identifier, Setup fails fatally during the
project-details step: no clone command (main or test) is ever attempted and
no state is saved. -/
theorem claim_C6 (env : SetupEnv) (store0 : Store)
    (hver : matchVersion (versionOf env.ref) = none)
    (hproj : validProjects.contains env.projectInput = false) :
    (setupRun env store0).failed = true ∧
    hasExecSite (setupRun env store0) "mainClone" = false ∧
    hasExecSite (setupRun env store0) "testClone" = false ∧
    PhaseEvent.stateSaved ∉ (setupRun env store0).events := by
  have hproj' : ¬ (env.projectInput ∈ validProjects) := by simpa using hproj
  simp [setupRun, setupBody, parseProject, hver, hproj', hasExecSite, summaryStep, emit]

/-- Concrete nominal Setup environment used by witnesses: an exact cache hit
with every child process succeeding. -/
def demoSetupEnv : SetupEnv where
  owner := "octo"
  repo := "proj"
  ref := "refs/tags/v1.0.3"
  token := "t"
  projectInput := ""
  mainCloneExit := 0
  mainLsExit := 0
  commits := .ok "abc123"
  cacheResult := some "project-tests-abc123"
  statusExit := 0
  pullExit := 0
  testCloneExit := 0
  testLsExit := 0
  dirLsExit := 0

/-- Witness for C6 at version `v9.9` with the invalid project input `5`. -/
theorem claim_C6_witness :
    (setupRun { demoSetupEnv with ref := "refs/tags/v9.9", projectInput := "5" } []).failed =
      true ∧
    hasExecSite (setupRun { demoSetupEnv with ref := "refs/tags/v9.9", projectInput := "5" } [])
      "mainClone" = false :=
  ⟨(claim_C6 _ [] (by decide) (by decide)).1, (claim_C6 _ [] (by decide) (by decide)).2.1⟩

theorem testKey_ne_empty (sha : String) : testDir ++ "-" ++ sha ≠ "" := by
  intro h
  have h2 := congrArg String.length h
  rw [String.length_append, String.length_append] at h2
  have h3 : testDir.length = 13 := by decide
  have h4 : ("-" : String).length = 1 := rfl
  have h5 : ("" : String).length = 0 := rfl
  rw [h3, h4, h5] at h2
  omega

/-! ### Claim C4: cache trichotomy in Setup's test-cache step -/

/-- Claim C4: once Setup reaches the test-cache step, an exact cache hit
runs neither the incremental pull nor the full clone; a fallback hit (any
other returned key) runs the incremental pull and never the full clone; and
a miss runs the full clone, records the cold-cache warning, and the phase
continues to a successful end when the remaining steps succeed. -/
theorem claim_C4 (env : SetupEnv) (store0 : Store) (pv : JsVal) (sha : String)
    (hpv : parseProject (versionOf env.ref) env.projectInput = .ok pv)
    (hclone : env.mainCloneExit = 0) (hls : env.mainLsExit = 0)
    (hsha : env.commits = .ok sha) :
    (env.cacheResult = some (testDir ++ "-" ++ sha) →
      hasExecSite (setupRun env store0) "gitPull" = false ∧
      hasExecSite (setupRun env store0) "testClone" = false) ∧
    (∀ k, env.cacheResult = some k → k ≠ testDir ++ "-" ++ sha →
      hasExecSite (setupRun env store0) "gitStatus" = true ∧
      (env.statusExit = 0 → hasExecSite (setupRun env store0) "gitPull" = true) ∧
      hasExecSite (setupRun env store0) "testClone" = false) ∧
    (env.cacheResult = none →
      hasExecSite (setupRun env store0) "testClone" = true ∧
      PhaseEvent.warning ("Unable to restore cache: " ++ (testDir ++ "-" ++ sha)) ∈
        (setupRun env store0).events ∧
      (env.testCloneExit = 0 → env.testLsExit = 0 → env.dirLsExit = 0 →
        (setupRun env store0).failed = false)) := by
  have hkne := testKey_ne_empty sha
  have hkne2 : ¬("" = testDir ++ "-" ++ sha) := fun h => hkne h.symm
  refine ⟨fun hc => ?_, fun k hc hk => ?_, fun hc => ?_⟩
  · by_cases hd : env.dirLsExit = 0 <;>
      simp [setupRun, setupBody, hpv, hclone, hls, hsha, hc, hd, hkne, hkne2, stepThrow, execStep,
        checkExec, BodyResult.andThen, emit, warnStep, saveStep, summaryStep, hasExecSite,
        jsFalsyCache]
  · refine ⟨?_, fun hst => ?_, ?_⟩
    · by_cases hkE : k = "" <;> by_cases hst : env.statusExit = 0 <;>
        by_cases hp : env.pullExit = 0 <;> by_cases hd : env.dirLsExit = 0 <;>
        simp [setupRun, setupBody, hpv, hclone, hls, hsha, hc, hk, hkE, hst, hp, hd, hkne, hkne2,
          stepThrow, execStep, checkExec, BodyResult.andThen, emit, warnStep, saveStep,
          summaryStep, hasExecSite, jsFalsyCache]
    · by_cases hkE : k = "" <;> by_cases hp : env.pullExit = 0 <;>
        by_cases hd : env.dirLsExit = 0 <;>
        simp [setupRun, setupBody, hpv, hclone, hls, hsha, hc, hk, hkE, hst, hp, hd, hkne, hkne2,
          stepThrow, execStep, checkExec, BodyResult.andThen, emit, warnStep, saveStep,
          summaryStep, hasExecSite, jsFalsyCache]
    · by_cases hkE : k = "" <;> by_cases hst : env.statusExit = 0 <;>
        by_cases hp : env.pullExit = 0 <;> by_cases hd : env.dirLsExit = 0 <;>
        simp [setupRun, setupBody, hpv, hclone, hls, hsha, hc, hk, hkE, hst, hp, hd, hkne, hkne2,
          stepThrow, execStep, checkExec, BodyResult.andThen, emit, warnStep, saveStep,
          summaryStep, hasExecSite, jsFalsyCache]
  · refine ⟨?_, ?_, fun h1 h2 h3 => ?_⟩
    · by_cases ht1 : env.testCloneExit = 0 <;> by_cases ht2 : env.testLsExit = 0 <;>
        by_cases hd : env.dirLsExit = 0 <;>
        simp [setupRun, setupBody, hpv, hclone, hls, hsha, hc, ht1, ht2, hd, hkne, hkne2,
          stepThrow, execStep, checkExec, BodyResult.andThen, emit, warnStep, saveStep,
          summaryStep, hasExecSite, jsFalsyCache]
    · by_cases ht1 : env.testCloneExit = 0 <;> by_cases ht2 : env.testLsExit = 0 <;>
        by_cases hd : env.dirLsExit = 0 <;>
        simp [setupRun, setupBody, hpv, hclone, hls, hsha, hc, ht1, ht2, hd, hkne, hkne2,
          stepThrow, execStep, checkExec, BodyResult.andThen, emit, warnStep, saveStep,
          summaryStep, hasExecSite, jsFalsyCache]
    · simp [setupRun, setupBody, hpv, hclone, hls, hsha, hc, h1, h2, h3, hkne, hkne2,
        stepThrow, execStep, checkExec, BodyResult.andThen, emit, warnStep, saveStep,
        summaryStep, hasExecSite, jsFalsyCache]

/-- Witness for C4: the three cache outcomes evaluated on one concrete
environment family. -/
theorem claim_C4_witness :
    hasExecSite (setupRun { demoSetupEnv with cacheResult := some (testDir ++ "-" ++ "abc123") }
      []) "gitPull" = false ∧
    hasExecSite (setupRun { demoSetupEnv with cacheResult := some "project-tests-xyz999" } [])
      "gitStatus" = true ∧
    hasExecSite (setupRun { demoSetupEnv with cacheResult := none } []) "testClone" = true :=
  ⟨((claim_C4 { demoSetupEnv with cacheResult := some (testDir ++ "-" ++ "abc123") } []
      (JsVal.num 1) "abc123" rfl rfl rfl rfl).1 rfl).1,
   (((claim_C4 { demoSetupEnv with cacheResult := some "project-tests-xyz999" } []
      (JsVal.num 1) "abc123" rfl rfl rfl rfl).2.1
      "project-tests-xyz999" rfl (by decide)).1),
   (((claim_C4 { demoSetupEnv with cacheResult := none } []
      (JsVal.num 1) "abc123" rfl rfl rfl rfl).2.2 rfl).1)⟩

/-! ### Additional states-object lemmas -/

theorem lookupKey_setKey_self (m : States) (k : String) (v : JsVal) :
    lookupKey (setKey m k v) k = some v := by
  induction m with
  | nil => simp [setKey]
  | cons p m' ih =>
    obtain ⟨pk, pv⟩ := p
    by_cases hp : pk = k
    · rw [setKey, if_pos hp]
      simp [hp]
    · rw [setKey, if_neg hp]
      simp [hp, ih]

theorem map_fst_setKey (m : States) (k : String) (v : JsVal) :
    (setKey m k v).map Prod.fst =
      if k ∈ m.map Prod.fst then m.map Prod.fst else m.map Prod.fst ++ [k] := by
  induction m with
  | nil => simp [setKey]
  | cons p m' ih =>
    obtain ⟨pk, pv⟩ := p
    by_cases hp : pk = k
    · rw [setKey, if_pos hp]
      simp [hp]
    · rw [setKey, if_neg hp]
      have hp2 : ¬(k = pk) := fun h => hp h.symm
      by_cases hm : k ∈ m'.map Prod.fst <;>
        simp [hm, ih, hp2]

theorem nodup_setKey (m : States) (k : String) (v : JsVal)
    (h : (m.map Prod.fst).Nodup) : ((setKey m k v).map Prod.fst).Nodup := by
  rw [map_fst_setKey]
  by_cases hm : k ∈ m.map Prod.fst
  · simpa [hm] using h
  · simp only [hm, if_false]
    exact List.Nodup.append h (List.nodup_singleton k) (by simpa using hm)

theorem not_mem_map_fst_setKey (m : States) (k x : String) (v : JsVal)
    (hx : x ∉ m.map Prod.fst) (hk : x ≠ k) : x ∉ (setKey m k v).map Prod.fst := by
  rw [map_fst_setKey]
  by_cases hm : k ∈ m.map Prod.fst
  · simpa [hm] using hx
  · simp [hm, hx, hk]

theorem lookupKey_mem (m : States) (k : String) (v : JsVal)
    (h : lookupKey m k = some v) : (k, v) ∈ m := by
  induction m with
  | nil => simp at h
  | cons p m' ih =>
    obtain ⟨pk, pv⟩ := p
    by_cases hp : pk = k
    · rw [lookupKey_cons, if_pos hp] at h
      cases h
      simp [hp]
    · rw [lookupKey_cons, if_neg hp] at h
      exact List.mem_cons_of_mem _ (ih h)

theorem lookupKey_serial (m : States) (k : String) (v : JsVal)
    (h : lookupKey m k = some v) :
    lookupKey (m.map fun p => (p.1, JsVal.str (toCommandValue p.2))) k =
      some (.str (toCommandValue v)) := by
  induction m with
  | nil => simp at h
  | cons p m' ih =>
    obtain ⟨pk, pv⟩ := p
    by_cases hp : pk = k
    · rw [lookupKey_cons, if_pos hp] at h
      cases h
      simp [hp]
    · rw [lookupKey_cons, if_neg hp] at h
      simp [hp, ih h]

/-! ### Verify phase (verify.js) -/

/-- Template interpolation of a `states` property: an absent property is the
JS `undefined`, which renders as the text `undefined`. -/
def jsAt (m : States) (k : String) : String :=
  match lookupKey m k with
  | some v => jsDisplay v
  | none => "undefined"

/-- Exit codes of the child processes run by the Verify phase. -/
structure VerifyEnv where
  javaExit : Nat
  javacExit : Nat
  mvnvExit : Nat
  depExit : Nat
  warnCompileExit : Nat
  mainCompileExit : Nat
  mainLsExit : Nat
  testCompileExit : Nat
  testLsExit : Nat
  verifyExit : Nat
  debugExit : Nat
  deriving Repr

/-- Settings of the debug test invocation in verify.js: note the absence of
an `error` entry, so its non-zero exit can never throw. -/
def debugSettings (tester : String) : ExecSettings :=
  { param := some ["-ntp", "-Dtest=" ++ tester, "-DexcludedGroups=verify", "test"],
    title := some "Running debug tests",
    chdir := some (mainDir ++ "/") }

/-- Failure message composed by the Verify phase from the restored project
and version state entries. -/
def verifyFailMessage (st : States) : String :=
  "One or more Project " ++ jsAt st "project" ++ " verification tests of " ++
    jsAt st "version" ++ " failed."

/-- Success message composed by the Verify phase. -/
def verifySuccessMessage (st : States) : String :=
  "All Project " ++ jsAt st "project" ++ " verification tests of " ++
    jsAt st "version" ++ " passed!"

/-- Model of the try-block of verify.js `run`: restore state, display tool
versions, update dependencies, compile main twice (warnings run is
informational), compile tests, run the verification tests, record
`passed`/`message`, and on failure run the debug tests and throw the
verification-failure message. -/
def verifyBody (env : VerifyEnv) (c0 : Ctx) : BodyResult :=
  match restoreStates c0.store c0.states with
  | none => (c0, some "Unexpected token in JSON")
  | some st =>
    let c := { c0 with states := st }
    (stepThrow c "java" "java"
      { param := some ["--version"], title := some "Displaying Java runtime version",
        error := some "Unable to display Java runtime version" } env.javaExit).andThen fun c =>
    (stepThrow c "javac" "javac"
      { param := some ["--version"], title := some "Displaying Java compiler version",
        error := some "Unable to display Java compiler version" } env.javacExit).andThen fun c =>
    (stepThrow c "mvnVersion" "mvn"
      { param := some ["--version"], title := some "Displaying Maven version",
        error := some "Unable to display Maven version" } env.mvnvExit).andThen fun c =>
    (stepThrow c "mavenDep" "mvn"
      { param := some ["-f", mainDir ++ "/pom.xml", "-ntp", "dependency:go-offline"],
        error := some "Updating returned non-zero exit code" } env.depExit).andThen fun c =>
    let (c, _) := execStep c "warnCompile" "mvn"
      { param := some ["-ntp", "compile"],
        title := some "Compiling project main code (with warnings enabled)",
        chdir := some (mainDir ++ "/") } env.warnCompileExit
    (stepThrow c "mainCompile" "mvn"
      { param := some ["-ntp", "clean", "compile"],
        title := some "Recompiling project main code (with warnings disabled)",
        error := some "Recompiling returned non-zero exit code",
        chdir := some (mainDir ++ "/") } env.mainCompileExit).andThen fun c =>
    (stepThrow c "mainLs" "ls"
      { param := some ["-m", mainDir ++ "/target/classes"],
        title := some "Listing main class files",
        error := some "Unable to list main class directory" } env.mainLsExit).andThen fun c =>
    (stepThrow c "testCompile" "mvn"
      { param := some ["-ntp", "test-compile"], title := some "Compiling project test code",
        error := some "Compiling returned non-zero exit code",
        chdir := some (mainDir ++ "/") } env.testCompileExit).andThen fun c =>
    (stepThrow c "testLs" "ls"
      { param := some ["-m", mainDir ++ "/target/test-classes"],
        title := some "Listing test class files",
        error := some "Unable to list test class directory" } env.testLsExit).andThen fun c =>
    let (c, _) := execStep c "verifyTests" "mvn"
      { param := some ["-ntp", "-Dtest=" ++ jsAt c.states "tester",
          "-DexcludedGroups=none()|!verify", "test"],
        title := some "Running verification tests",
        chdir := some (mainDir ++ "/") } env.verifyExit
    let passed := env.verifyExit == 0
    let message := if passed then verifySuccessMessage c.states else verifyFailMessage c.states
    let st1 := setKey (setKey c.states "passed" (.bool passed)) "message" (.str message)
    let c := { c with states := st1 }
    if passed then (c, none)
    else
      let (c, _) := execStep c "debugTests" "mvn" (debugSettings (jsAt c.states "tester"))
        env.debugExit
      (c, some message)

/-- Warning-summary label used by the Verify phase. -/
def testLabel : String := "\"Test Project\""

/-- Model of verify.js `run`: the try-block, the catch that marks the run
failed, and the finally that always saves state, logs and summarizes. -/
def verifyRun (env : VerifyEnv) (store0 : Store) : PhaseTrace :=
  match verifyBody env { store := store0 } with
  | (c, none) =>
    let c := summaryStep (saveStep c) testLabel
    ⟨c.events, c.states, c.store, c.warnings, false⟩
  | (c, some msg) =>
    let c := summaryStep (saveStep (emit c (.failedMark ("Unable to verify project. " ++ msg))))
      testLabel
    ⟨c.events, c.states, c.store, c.warnings, true⟩

/-! ### Cleanup phase (cleanup.js) -/

/-- JS strict equality between a `states` property value and a string
literal (`states.passed !== 'true'` and friends): values of another runtime
type are never strictly equal to a string. -/
def jsStrictEqStr (v : JsVal) (s : String) : Bool :=
  match v with
  | .str t => t = s
  | _ => false

/-- Gate of the Cleanup reporting phase:
`'passed' in states && states.passed !== 'true'`. -/
def passedGate (st : States) : Bool :=
  match lookupKey st "passed" with
  | some v => ! jsStrictEqStr v "true"
  | none => false

/-- Structurally recursive model of `Array.join(', ')` on the failed-items
list. -/
def joinComma : List String → String
  | [] => ""
  | [s] => s
  | s :: rest => s ++ ", " ++ joinComma rest

/-- Structurally recursive model of `String.startsWith`. -/
def strStartsWith (s p : String) : Bool := p.data.isPrefixOf s.data

/-- External inputs and step outcomes consumed by the Cleanup phase. -/
structure CleanupEnv where
  ref : String
  reportsExit : Nat
  siteExit : Nat
  siteLsExit : Nat
  zipExit : Nat
  wdLsExit : Nat
  reportUploadFailed : List String
  globFound : List String
  actualZipExit : Nat
  actualLsExit : Nat
  rmExit : Nat
  actualUploadFailed : List String
  releaseStatus : Nat
  updateStatus : Nat
  saveCacheResult : Except String Nat
  deriving Repr

/-- Model of the first Cleanup try-block: report generation, site build and
the upload of the zipped report site; a non-empty failed-items list from the
upload throws. -/
def reportsGroup (env : CleanupEnv) (c : Ctx) : BodyResult :=
  (stepThrow c "reports" "mvn"
    { param := some ["-ntp", "surefire-report:report-only"],
      title := some "Generating reports", error := some "Unable to generate reports",
      chdir := some (mainDir ++ "/") } env.reportsExit).andThen fun c =>
  (stepThrow c "siteGen" "mvn"
    { param := some ["-ntp", "-DgenerateReports=false", "site"],
      title := some "Generating report site", error := some "Unable to generate report site",
      chdir := some (mainDir ++ "/") } env.siteExit).andThen fun c =>
  (stepThrow c "siteLs" "ls"
    { param := some ["-m", mainDir ++ "/target/site"],
      title := some "Listing project report site",
      error := some "Unable to list site directory" } env.siteLsExit).andThen fun c =>
  (stepThrow c "resultsZip" "zip"
    { param := some ["-r", "../../results.zip", "site"],
      title := some "Zipping test report site", error := some "Unable to zip test report site",
      chdir := some (mainDir ++ "/target/") } env.zipExit).andThen fun c =>
  (stepThrow c "wdLs" "ls"
    { param := some ["-l", "."], title := some "Listing working directory",
      error := some "Unable to list working directory" } env.wdLsExit).andThen fun c =>
  let c := emit c (.upload "reportUpload")
  if env.reportUploadFailed ≠ [] then
    (c, some ("Failed to upload: " ++ joinComma env.reportUploadFailed ++ "."))
  else (c, none)

/-- Model of the second Cleanup try-block: when the glob finds actual output
files, they are zipped, removed from the cache tree and uploaded; a
non-empty failed-items list throws. -/
def actualGroup (env : CleanupEnv) (c : Ctx) : BodyResult :=
  if env.globFound.length > 0 then
    (stepThrow c "actualZip" "zip"
      { param := some ["-r", "../actual.zip", "actual"],
        title := some "Zipping actual output files",
        error := some "Unable to zip actual output files",
        chdir := some (testDir ++ "/") } env.actualZipExit).andThen fun c =>
    (stepThrow c "actualLs" "ls"
      { param := some ["-l", "."], title := some "Listing working directory",
        error := some "Unable to list working directory" } env.actualLsExit).andThen fun c =>
    (stepThrow c "rmActual" "rm"
      { param := some ["-rf", testDir ++ "/actual"], title := some "Removing actual files...",
        error := some "Unable to remove actual files" } env.rmExit).andThen fun c =>
    let c := emit c (.upload "actualUpload")
    if env.actualUploadFailed ≠ [] then
      (c, some ("Failed to upload: " ++ joinComma env.actualUploadFailed ++ "."))
    else (c, none)
  else (c, none)

/-- Model of the release-update try-block: gated on `passed`, `message` and
a version-tag ref; a missing release or a failed update throws. -/
def releaseGroup (env : CleanupEnv) (c : Ctx) : BodyResult :=
  if containsKey c.states "passed" && containsKey c.states "message" &&
      strStartsWith env.ref "refs/tags/v" then
    if env.releaseStatus = 200 then
      if env.updateStatus = 200 then (c, none)
      else (c, some ("Unable to update release: " ++ jsAt c.states "version"))
    else (c, some ("Unable to find release: " ++ jsAt c.states "version"))
  else (c, none)

/-- Model of the cache-save try-block: with a computed `testKey` restored,
an exact match against the restored `testCache` skips the save; otherwise a
save under the computed key is attempted and an underlying cache error
throws. -/
def cacheGroup (env : CleanupEnv) (c : Ctx) : BodyResult :=
  match lookupKey c.states "testKey" with
  | none => (c, none)
  | some tk =>
    if (match lookupKey c.states "testCache" with
        | some tc => tc == tk
        | none => false) then
      (c, none)
    else
      let c := emit c (.cacheSave (jsDisplay tk))
      match env.saveCacheResult with
      | .error msg => (c, some msg)
      | .ok _ => (c, none)

/-- One Cleanup try/catch pair: a thrown group error is converted into a
recoverable warning with the group's message prefix. -/
def runGroup (c : Ctx) (g : Ctx → BodyResult) (warnPre : String) : Ctx :=
  match g c with
  | (c', none) => c'
  | (c', some msg) => warnStep c' (warnPre ++ msg)

/-- Warning-summary label used by the Cleanup phase. -/
def postLabel : String := "\"Post Test Project\""

/-- Model of cleanup.js `run`: restore state (outside any try: a corrupt
index entry crashes the process, modelled as `none`), conditionally produce
reports and actual-output uploads, update the release, save the test cache,
then log and summarize. Every group failure is caught and downgraded to a
warning, so the phase itself never reports failure. -/
def cleanupRun (env : CleanupEnv) (store0 : Store) : Option PhaseTrace :=
  match restoreStates store0 [] with
  | none => none
  | some st =>
    let c : Ctx := { store := store0, states := st }
    let c :=
      if passedGate st then
        runGroup (runGroup c (reportsGroup env) "Encountered issues generating reports. ")
          (actualGroup env) "Encountered issues uploading actual files. "
      else c
    let c := runGroup c (releaseGroup env) "Encountered issues updating release. "
    let c := runGroup c (cacheGroup env) "Encountered issues saving cache. "
    let c := summaryStep c postLabel
    some ⟨c.events, c.states, c.store, c.warnings, false⟩

/-! ### Event-extension reasoning

Every phase step only appends to the event log; these lemmas track which
kinds of events a program fragment can append. -/

/-- The context `c'` extends `c` by events all satisfying `P`. -/
def ExtendsWith (c c' : Ctx) (P : PhaseEvent → Prop) : Prop :=
  ∃ evs, c'.events = c.events ++ evs ∧ ∀ e ∈ evs, P e

theorem extendsWith_refl (c : Ctx) (P : PhaseEvent → Prop) : ExtendsWith c c P :=
  ⟨[], by simp, by simp⟩

theorem extendsWith_trans {c : Ctx} (c' : Ctx) {c'' : Ctx} {P : PhaseEvent → Prop}
    (h1 : ExtendsWith c c' P) (h2 : ExtendsWith c' c'' P) : ExtendsWith c c'' P := by
  obtain ⟨e1, he1, hp1⟩ := h1
  obtain ⟨e2, he2, hp2⟩ := h2
  refine ⟨e1 ++ e2, by rw [he2, he1, List.append_assoc], fun e he => ?_⟩
  rcases List.mem_append.mp he with h | h
  · exact hp1 e h
  · exact hp2 e h

theorem mem_of_extendsWith {c c' : Ctx} {P : PhaseEvent → Prop} {e : PhaseEvent}
    (h : ExtendsWith c c' P) (he : e ∈ c.events) : e ∈ c'.events := by
  obtain ⟨evs, heq, _⟩ := h
  rw [heq]
  exact List.mem_append_left _ he

theorem not_mem_of_extendsWith {c c' : Ctx} {P : PhaseEvent → Prop} (e : PhaseEvent)
    (h : ExtendsWith c c' P) (hP : ¬ P e) (he : e ∉ c.events) : e ∉ c'.events := by
  obtain ⟨evs, heq, hall⟩ := h
  rw [heq]
  intro hmem
  rcases List.mem_append.mp hmem with h1 | h1
  · exact he h1
  · exact hP (hall e h1)

theorem extendsWith_emit (c : Ctx) (e : PhaseEvent) (P : PhaseEvent → Prop) (hP : P e) :
    ExtendsWith c (emit c e) P :=
  ⟨[e], rfl, by simpa using hP⟩

theorem stepThrow_fst (c : Ctx) (site cmd : String) (s : ExecSettings) (x : Nat) :
    (stepThrow c site cmd s x).1 = emit c (.exec site x) := by
  rw [stepThrow, execStep]
  rcases checkExec cmd s x with m | n <;> rfl

theorem extendsWith_stepThrow (c : Ctx) (site cmd : String) (s : ExecSettings) (x : Nat)
    (P : PhaseEvent → Prop) (hP : P (.exec site x)) :
    ExtendsWith c ((stepThrow c site cmd s x).1) P := by
  rw [stepThrow_fst]
  exact extendsWith_emit c _ P hP

theorem extendsWith_warnStep (c : Ctx) (msg : String) (P : PhaseEvent → Prop)
    (hP : P (.warning msg)) : ExtendsWith c (warnStep c msg) P :=
  ⟨[.warning msg], rfl, by simpa using hP⟩

theorem extendsWith_andThen {c0 : Ctx} {r : BodyResult} {f : Ctx → BodyResult}
    {P : PhaseEvent → Prop} (h1 : ExtendsWith c0 r.1 P)
    (h2 : ∀ c, ExtendsWith c ((f c).1) P) :
    ExtendsWith c0 ((r.andThen f).1) P := by
  obtain ⟨c, msg⟩ := r
  cases msg with
  | none => exact extendsWith_trans _ h1 (h2 c)
  | some m => exact h1

/-- Events appended by the non-cache Cleanup groups: exec runs, uploads and
(after the catch) warnings. -/
def CleanupBenign (e : PhaseEvent) : Prop :=
  (∃ s x, e = .exec s x) ∨ (∃ s, e = .upload s) ∨ (∃ m, e = .warning m)

theorem extendsWith_reportsGroup (env : CleanupEnv) (c : Ctx) (P : PhaseEvent → Prop)
    (hP : ∀ e, CleanupBenign e → P e) :
    ExtendsWith c ((reportsGroup env c).1) P := by
  rw [reportsGroup]
  refine extendsWith_andThen (extendsWith_stepThrow _ _ _ _ _ _ (hP _ (Or.inl ⟨_, _, rfl⟩)))
    fun c1 => ?_
  refine extendsWith_andThen (extendsWith_stepThrow _ _ _ _ _ _ (hP _ (Or.inl ⟨_, _, rfl⟩)))
    fun c2 => ?_
  refine extendsWith_andThen (extendsWith_stepThrow _ _ _ _ _ _ (hP _ (Or.inl ⟨_, _, rfl⟩)))
    fun c3 => ?_
  refine extendsWith_andThen (extendsWith_stepThrow _ _ _ _ _ _ (hP _ (Or.inl ⟨_, _, rfl⟩)))
    fun c4 => ?_
  refine extendsWith_andThen (extendsWith_stepThrow _ _ _ _ _ _ (hP _ (Or.inl ⟨_, _, rfl⟩)))
    fun c5 => ?_
  have hup : ExtendsWith c5 (emit c5 (.upload "reportUpload")) P :=
    extendsWith_emit _ _ _ (hP _ (Or.inr (Or.inl ⟨_, rfl⟩)))
  by_cases hf : env.reportUploadFailed ≠ [] <;> simpa [hf] using hup

theorem extendsWith_actualGroup (env : CleanupEnv) (c : Ctx) (P : PhaseEvent → Prop)
    (hP : ∀ e, CleanupBenign e → P e) :
    ExtendsWith c ((actualGroup env c).1) P := by
  rw [actualGroup]
  by_cases hg : env.globFound.length > 0
  · simp only [hg, if_true]
    refine extendsWith_andThen (extendsWith_stepThrow _ _ _ _ _ _ (hP _ (Or.inl ⟨_, _, rfl⟩)))
      fun c1 => ?_
    refine extendsWith_andThen (extendsWith_stepThrow _ _ _ _ _ _ (hP _ (Or.inl ⟨_, _, rfl⟩)))
      fun c2 => ?_
    refine extendsWith_andThen (extendsWith_stepThrow _ _ _ _ _ _ (hP _ (Or.inl ⟨_, _, rfl⟩)))
      fun c3 => ?_
    have hup : ExtendsWith c3 (emit c3 (.upload "actualUpload")) P :=
      extendsWith_emit _ _ _ (hP _ (Or.inr (Or.inl ⟨_, rfl⟩)))
    by_cases hf : env.actualUploadFailed ≠ [] <;> simpa [hf] using hup
  · simp only [hg, if_false]
    exact extendsWith_refl c P

theorem extendsWith_releaseGroup (env : CleanupEnv) (c : Ctx) (P : PhaseEvent → Prop) :
    ExtendsWith c ((releaseGroup env c).1) P := by
  rw [releaseGroup]
  by_cases hg : (containsKey c.states "passed" && containsKey c.states "message" &&
      strStartsWith env.ref "refs/tags/v") = true
  · simp only [hg, if_true]
    by_cases h200 : env.releaseStatus = 200 <;> by_cases hup : env.updateStatus = 200 <;>
      simp [h200, hup, extendsWith_refl]
  · simp only [hg, if_false]
    exact extendsWith_refl c P

theorem extendsWith_runGroup (c : Ctx) (g : Ctx → BodyResult) (w : String)
    (P : PhaseEvent → Prop) (hw : ∀ m, P (.warning m))
    (hg : ExtendsWith c ((g c).1) P) :
    ExtendsWith c (runGroup c g w) P := by
  rw [runGroup]
  rcases hr : g c with ⟨c', msg⟩
  rw [hr] at hg
  cases msg with
  | none => exact hg
  | some m => exact extendsWith_trans _ hg (extendsWith_warnStep _ _ _ (hw _))

theorem extendsWith_cacheGroup (env : CleanupEnv) (c : Ctx) (P : PhaseEvent → Prop)
    (hcs : ∀ k, P (.cacheSave k)) :
    ExtendsWith c ((cacheGroup env c).1) P := by
  rw [cacheGroup]
  rcases lookupKey c.states "testKey" with _ | tk
  · exact extendsWith_refl c P
  · by_cases hskip : (match lookupKey c.states "testCache" with
        | some tc => tc == tk
        | none => false) = true
    · simp only [hskip, if_true]
      exact extendsWith_refl c P
    · simp only [hskip, if_false]
      have hem : ExtendsWith c (emit c (.cacheSave (jsDisplay tk))) P :=
        extendsWith_emit _ _ _ (hcs _)
      rcases env.saveCacheResult with m | n <;> simpa using hem

/-! ### Claim C1: end-of-phase persistence and warning summary -/

/-- Claim C1 (amended): every phase emits its warning summary as its last
action on every outcome; the Verify phase also persists its state first,
unconditionally (finally block); Setup persists its state, right before the
summary, only when the phase did not fail (saveStates sits at the end of the
try-block, not in the finally); Cleanup never persists state. -/
theorem claim_C1 :
    (∀ (venv : VerifyEnv) (store0 : Store), ∃ pre n,
      (verifyRun venv store0).events = pre ++ [.stateSaved, .summary testLabel n]) ∧
    (∀ (senv : SetupEnv) (store0 : Store),
      (∃ pre n, (setupRun senv store0).events = pre ++ [.summary preLabel n]) ∧
      ((setupRun senv store0).failed = false →
        ∃ pre n, (setupRun senv store0).events = pre ++ [.stateSaved, .summary preLabel n])) ∧
    (∀ (cenv : CleanupEnv) (store0 : Store) (t : PhaseTrace), cleanupRun cenv store0 = some t →
      (∃ pre n, t.events = pre ++ [.summary postLabel n]) ∧
      PhaseEvent.stateSaved ∉ t.events) := by
  refine ⟨fun venv store0 => ?_, fun senv store0 => ⟨?_, ?_⟩, fun cenv store0 t ht => ?_⟩
  · rcases hb : verifyBody venv { store := store0 } with ⟨c, msg⟩
    cases msg with
    | none =>
      exact ⟨c.events, c.warnings, by simp [verifyRun, hb, saveStep, summaryStep, emit]⟩
    | some m =>
      exact ⟨c.events ++ [.failedMark ("Unable to verify project. " ++ m)], c.warnings,
        by simp [verifyRun, hb, saveStep, summaryStep, emit]⟩
  · rcases hb : setupBody senv { store := store0 } with ⟨c, msg⟩
    cases msg with
    | none =>
      exact ⟨c.events ++ [.stateSaved], c.warnings,
        by simp [setupRun, hb, saveStep, summaryStep, emit]⟩
    | some m =>
      exact ⟨c.events ++ [.failedMark ("Setup failed. " ++ m)], c.warnings,
        by simp [setupRun, hb, saveStep, summaryStep, emit]⟩
  · rcases hb : setupBody senv { store := store0 } with ⟨c, msg⟩
    cases msg with
    | none =>
      intro _
      exact ⟨c.events, c.warnings, by simp [setupRun, hb, saveStep, summaryStep, emit]⟩
    | some m =>
      intro hfail
      rw [setupRun, hb] at hfail
      simp at hfail
  · rcases hres : restoreStates store0 [] with _ | st
    · rw [cleanupRun, hres] at ht
      simp at ht
    · have hnostate : ∀ e : PhaseEvent, CleanupBenign e → e ≠ PhaseEvent.stateSaved := by
        rintro e (⟨s, x, rfl⟩ | ⟨s, rfl⟩ | ⟨m, rfl⟩) <;> simp
      have hcs : ∀ k : String, (PhaseEvent.cacheSave k) ≠ PhaseEvent.stateSaved := by
        intro k
        simp
      rw [cleanupRun, hres] at ht
      set c0 : Ctx := { store := store0, states := st } with hc0
      set c1 : Ctx :=
        (if passedGate st then
          runGroup (runGroup c0 (reportsGroup cenv) "Encountered issues generating reports. ")
            (actualGroup cenv) "Encountered issues uploading actual files. "
        else c0) with hc1
      set c2 : Ctx := runGroup c1 (releaseGroup cenv) "Encountered issues updating release. "
        with hc2
      set c3 : Ctx := runGroup c2 (cacheGroup cenv) "Encountered issues saving cache. "
        with hc3
      have hteq : t = ⟨(summaryStep c3 postLabel).events, (summaryStep c3 postLabel).states,
          (summaryStep c3 postLabel).store, (summaryStep c3 postLabel).warnings, false⟩ := by
        simp only [Option.some.injEq] at ht
        exact ht.symm
      have h2 : ExtendsWith c0 c1 (fun e => e ≠ PhaseEvent.stateSaved) := by
        rw [hc1]
        by_cases hg : passedGate st
        · simp only [hg, if_true]
          refine extendsWith_trans
            (runGroup c0 (reportsGroup cenv) "Encountered issues generating reports. ") ?_ ?_
          · exact extendsWith_runGroup _ _ _ _ (fun m => by simp)
              (extendsWith_reportsGroup _ _ _ hnostate)
          · exact extendsWith_runGroup _ _ _ _ (fun m => by simp)
              (extendsWith_actualGroup _ _ _ hnostate)
        · simp only [hg, if_false]
          exact extendsWith_refl _ _
      have h3 : ExtendsWith c1 c2 (fun e => e ≠ PhaseEvent.stateSaved) := by
        rw [hc2]
        exact extendsWith_runGroup _ _ _ _ (fun m => by simp)
          (extendsWith_releaseGroup cenv _ _)
      have h4 : ExtendsWith c2 c3 (fun e => e ≠ PhaseEvent.stateSaved) := by
        rw [hc3]
        exact extendsWith_runGroup _ _ _ _ (fun m => by simp)
          (extendsWith_cacheGroup cenv _ _ hcs)
      have hall := extendsWith_trans _ (extendsWith_trans _ h2 h3) h4
      have hc0ev : PhaseEvent.stateSaved ∉ c0.events := by
        rw [hc0]
        simp
      have hfin := not_mem_of_extendsWith PhaseEvent.stateSaved hall (by simp) hc0ev
      constructor
      · refine ⟨c3.events, c3.warnings, ?_⟩
        rw [hteq]
        simp [summaryStep, emit]
      · rw [hteq]
        simp only [summaryStep, emit]
        intro hmem
        rcases List.mem_append.mp hmem with h | h
        · exact hfin h
        · simp at h

/-- Counterexample for C1 as frozen: a Setup run that fails during the
project-details step emits the warning summary but never persists state, so
persistence is not a finally-style guarantee on Setup's error path. -/
theorem claim_C1_counterexample :
    (setupRun { demoSetupEnv with ref := "refs/tags/v9.9", projectInput := "5" } []).failed =
      true ∧
    PhaseEvent.stateSaved ∉
      (setupRun { demoSetupEnv with ref := "refs/tags/v9.9", projectInput := "5" } []).events ∧
    PhaseEvent.summary preLabel 0 ∈
      (setupRun { demoSetupEnv with ref := "refs/tags/v9.9", projectInput := "5" } []).events := by
  refine ⟨by decide, by decide, by decide⟩

/-- Witness for C1: the amended guarantees applied to a concrete verify run
and a concrete cleanup run. -/
theorem claim_C1_witness :
    (∃ pre n, (verifyRun
        { javaExit := 0, javacExit := 0, mvnvExit := 0, depExit := 0, warnCompileExit := 0,
          mainCompileExit := 0, mainLsExit := 0, testCompileExit := 0, testLsExit := 0,
          verifyExit := 1, debugExit := 0 } []).events =
      pre ++ [.stateSaved, .summary testLabel n]) ∧
    (∀ t, cleanupRun
        { ref := "refs/heads/main", reportsExit := 0, siteExit := 0, siteLsExit := 0,
          zipExit := 0, wdLsExit := 0, reportUploadFailed := [], globFound := [],
          actualZipExit := 0, actualLsExit := 0, rmExit := 0, actualUploadFailed := [],
          releaseStatus := 200, updateStatus := 200, saveCacheResult := .ok 1 } [] = some t →
      PhaseEvent.stateSaved ∉ t.events) :=
  ⟨claim_C1.1 _ [], fun t ht => (claim_C1.2.2 _ [] t ht).2⟩

/-! ### Claims C10 and C5: the Verify failure path -/

/-- Concrete Verify environment: every tool succeeds but the verification
tests exit non-zero. -/
def demoVerifyEnv : VerifyEnv where
  javaExit := 0
  javacExit := 0
  mvnvExit := 0
  depExit := 0
  warnCompileExit := 0
  mainCompileExit := 0
  mainLsExit := 0
  testCompileExit := 0
  testLsExit := 0
  verifyExit := 1
  debugExit := 0

/-- Concrete state mapping left behind by a Setup run, as restored by
Verify. -/
def demoVerifySt : States :=
  strStates [("project", "1"), ("version", "v1.0.0"), ("tester", "Project1Test*")]

/-- Concrete durable store produced by saving `demoVerifySt`. -/
def demoVerifyStore : Store :=
  saveStates demoVerifySt []

/-- Concrete nominal Cleanup environment. -/
def demoCleanupEnv : CleanupEnv where
  ref := "refs/tags/v1.0.0"
  reportsExit := 0
  siteExit := 0
  siteLsExit := 0
  zipExit := 0
  wdLsExit := 0
  reportUploadFailed := []
  globFound := []
  actualZipExit := 0
  actualLsExit := 0
  rmExit := 0
  actualUploadFailed := []
  releaseStatus := 200
  updateStatus := 200
  saveCacheResult := .ok 1

/-- Claim C10: the debug run's exit code never affects the Verify outcome.
Once the phase reaches a failing verification run, for every debug exit code
the phase is marked failed with the original verification-failure message,
the debug run executes, the debug checkExec cannot itself throw (no error
setting), and the persisted store and failure flag are identical for any two
debug exit codes. -/
theorem claim_C10 (env : VerifyEnv) (store0 : Store) (st : States) (d : Nat)
    (hres : restoreStates store0 [] = some st)
    (h1 : env.javaExit = 0) (h2 : env.javacExit = 0) (h3 : env.mvnvExit = 0)
    (h4 : env.depExit = 0) (h5 : env.mainCompileExit = 0) (h6 : env.mainLsExit = 0)
    (h7 : env.testCompileExit = 0) (h8 : env.testLsExit = 0)
    (hv : env.verifyExit ≠ 0) :
    (verifyRun { env with debugExit := d } store0).failed = true ∧
    PhaseEvent.failedMark ("Unable to verify project. " ++ verifyFailMessage st) ∈
      (verifyRun { env with debugExit := d } store0).events ∧
    hasExecSite (verifyRun { env with debugExit := d } store0) "debugTests" = true ∧
    checkExec "mvn" (debugSettings (jsAt st "tester")) d = .ok d ∧
    (∀ d', (verifyRun { env with debugExit := d' } store0).store =
        (verifyRun { env with debugExit := d } store0).store ∧
      (verifyRun { env with debugExit := d' } store0).failed =
        (verifyRun { env with debugExit := d } store0).failed) := by
  have hv' : (env.verifyExit == 0) = false := by simpa using hv
  refine ⟨?_, ?_, ?_, by simp [checkExec, debugSettings], fun d' => ⟨?_, ?_⟩⟩ <;>
    simp [verifyRun, verifyBody, hres, h1, h2, h3, h4, h5, h6, h7, h8, hv', stepThrow,
      execStep, checkExec, BodyResult.andThen, emit, saveStep, summaryStep, hasExecSite,
      debugSettings, verifyFailMessage]

/-- Witness for C10 at a failing verification run with debug exit code 7. -/
theorem claim_C10_witness :
    (verifyRun { demoVerifyEnv with debugExit := 7 } demoVerifyStore).failed = true ∧
    checkExec "mvn" (debugSettings (jsAt demoVerifySt "tester")) 7 = .ok 7 :=
  ⟨(claim_C10 demoVerifyEnv demoVerifyStore demoVerifySt 7 (by decide) rfl rfl rfl rfl rfl
      rfl rfl rfl (by decide)).1,
   (claim_C10 demoVerifyEnv demoVerifyStore demoVerifySt 7 (by decide) rfl rfl rfl rfl rfl
      rfl rfl rfl (by decide)).2.2.2.1⟩

theorem reportsGroup_exec_mem (env : CleanupEnv) (c : Ctx) :
    PhaseEvent.exec "reports" env.reportsExit ∈ ((reportsGroup env c).1).events := by
  by_cases a1 : env.reportsExit = 0 <;> by_cases a2 : env.siteExit = 0 <;>
    by_cases a3 : env.siteLsExit = 0 <;> by_cases a4 : env.zipExit = 0 <;>
    by_cases a5 : env.wdLsExit = 0 <;> by_cases a6 : env.reportUploadFailed = [] <;>
    simp [reportsGroup, stepThrow, execStep, checkExec, BodyResult.andThen, emit,
      a1, a2, a3, a4, a5, a6]

theorem mem_runGroup (c : Ctx) (g : Ctx → BodyResult) (w : String) (e : PhaseEvent)
    (h : e ∈ ((g c).1).events) : e ∈ (runGroup c g w).events := by
  rw [runGroup]
  rcases hg : g c with ⟨c', msg⟩
  rw [hg] at h
  cases msg with
  | none => exact h
  | some m => exact List.mem_append_left _ h

theorem mem_summaryStep (c : Ctx) (l : String) (e : PhaseEvent) (h : e ∈ c.events) :
    e ∈ (summaryStep c l).events :=
  List.mem_append_left _ h

/-- Claim C5: when the Verify test command exits non-zero (and the phase
reached it), the persisted `passed` entry is the string `false`, the debug
run executes before the phase is marked fatally failed (the full event
sequence shows the order), and every Cleanup run restoring that store takes
the report-generation gate and runs the reports step. -/
theorem claim_C5 (env : VerifyEnv) (store0 : Store) (st : States)
    (hres : restoreStates store0 [] = some st)
    (hnd : (st.map Prod.fst).Nodup) (hkeys : "keys" ∉ st.map Prod.fst)
    (h1 : env.javaExit = 0) (h2 : env.javacExit = 0) (h3 : env.mvnvExit = 0)
    (h4 : env.depExit = 0) (h5 : env.mainCompileExit = 0) (h6 : env.mainLsExit = 0)
    (h7 : env.testCompileExit = 0) (h8 : env.testLsExit = 0)
    (hv : env.verifyExit ≠ 0) :
    getState (verifyRun env store0).store "passed" = "false" ∧
    (verifyRun env store0).events =
      [.exec "java" 0, .exec "javac" 0, .exec "mvnVersion" 0, .exec "mavenDep" 0,
       .exec "warnCompile" env.warnCompileExit, .exec "mainCompile" 0, .exec "mainLs" 0,
       .exec "testCompile" 0, .exec "testLs" 0, .exec "verifyTests" env.verifyExit,
       .exec "debugTests" env.debugExit,
       .failedMark ("Unable to verify project. " ++ verifyFailMessage st),
       .stateSaved, .summary testLabel 0] ∧
    (verifyRun env store0).failed = true ∧
    (∀ (cenv : CleanupEnv) (t' : PhaseTrace),
      cleanupRun cenv (verifyRun env store0).store = some t' →
      hasExecSite t' "reports" = true) := by
  have hv' : (env.verifyExit == 0) = false := by simpa using hv
  have hstore : (verifyRun env store0).store =
      saveStates (setKey (setKey st "passed" (JsVal.bool false)) "message"
        (.str (verifyFailMessage st))) store0 := by
    simp [verifyRun, verifyBody, hres, h1, h2, h3, h4, h5, h6, h7, h8, hv', stepThrow,
      execStep, checkExec, BodyResult.andThen, emit, saveStep, summaryStep,
      verifyFailMessage]
  set st2 := setKey (setKey st "passed" (JsVal.bool false)) "message"
    (.str (verifyFailMessage st)) with hst2
  have hnd2 : (st2.map Prod.fst).Nodup := nodup_setKey _ _ _ (nodup_setKey _ _ _ hnd)
  have hk2 : "keys" ∉ st2.map Prod.fst :=
    not_mem_map_fst_setKey _ _ _ _
      (not_mem_map_fst_setKey _ _ _ _ hkeys (by decide)) (by decide)
  have hlook2 : lookupKey st2 "passed" = some (.bool false) := by
    rw [hst2, lookupKey_setKey_ne _ _ _ _ (by decide), lookupKey_setKey_self]
  refine ⟨?_, ?_, ?_, ?_⟩
  · rw [hstore]
    rw [getState_saveStates_mem st2 store0 "passed" (.bool false) hnd2 (by decide)
      (lookupKey_mem _ _ _ hlook2)]
    rfl
  · simp [verifyRun, verifyBody, hres, h1, h2, h3, h4, h5, h6, h7, h8, hv', stepThrow,
      execStep, checkExec, BodyResult.andThen, emit, saveStep, summaryStep,
      verifyFailMessage]
  · simp [verifyRun, verifyBody, hres, h1, h2, h3, h4, h5, h6, h7, h8, hv', stepThrow,
      execStep, checkExec, BodyResult.andThen, emit, saveStep, summaryStep]
  · intro cenv t' ht'
    rw [hstore] at ht'
    have hres2 : restoreStates (saveStates st2 store0) [] =
        some (st2.map fun p => (p.1, JsVal.str (toCommandValue p.2))) := by
      rw [restoreStates_saveStates st2 store0 [] hnd2 hk2,
        foldl_setKey_append st2 [] hnd2 (by simp)]
      simp
    have hgate : passedGate (st2.map fun p => (p.1, JsVal.str (toCommandValue p.2))) =
        true := by
      rw [passedGate, lookupKey_serial st2 "passed" (.bool false) hlook2]
      rfl
    rw [cleanupRun, hres2] at ht'
    simp only [hgate, if_true, Option.some.injEq] at ht'
    subst ht'
    have hmem : ∀ c : Ctx, PhaseEvent.exec "reports" cenv.reportsExit ∈
        (runGroup c (reportsGroup cenv) "Encountered issues generating reports. ").events :=
      fun c => mem_runGroup _ _ _ _ (reportsGroup_exec_mem cenv c)
    have hext1 : ∀ c : Ctx, ExtendsWith c
        (runGroup c (actualGroup cenv) "Encountered issues uploading actual files. ")
        (fun _ => True) :=
      fun c => extendsWith_runGroup _ _ _ _ (fun _ => trivial)
        (extendsWith_actualGroup cenv _ _ (fun _ _ => trivial))
    have hext2 : ∀ c : Ctx, ExtendsWith c
        (runGroup c (releaseGroup cenv) "Encountered issues updating release. ")
        (fun _ => True) :=
      fun c => extendsWith_runGroup _ _ _ _ (fun _ => trivial)
        (extendsWith_releaseGroup cenv _ _)
    have hext3 : ∀ c : Ctx, ExtendsWith c
        (runGroup c (cacheGroup cenv) "Encountered issues saving cache. ")
        (fun _ => True) :=
      fun c => extendsWith_runGroup _ _ _ _ (fun _ => trivial)
        (extendsWith_cacheGroup cenv _ _ (fun _ => trivial))
    rw [hasExecSite, List.any_eq_true]
    refine ⟨PhaseEvent.exec "reports" cenv.reportsExit, ?_, by simp⟩
    exact mem_summaryStep _ postLabel _ (mem_of_extendsWith (hext3 _)
      (mem_of_extendsWith (hext2 _) (mem_of_extendsWith (hext1 _) (hmem _))))

/-- Witness for C5: the `passed` entry and failure flag on a concrete
failing run. -/
theorem claim_C5_witness :
    getState (verifyRun demoVerifyEnv demoVerifyStore).store "passed" = "false" ∧
    (verifyRun demoVerifyEnv demoVerifyStore).failed = true :=
  ⟨(claim_C5 demoVerifyEnv demoVerifyStore demoVerifySt (by decide) (by decide) (by decide)
      rfl rfl rfl rfl rfl rfl rfl rfl (by decide)).1,
   (claim_C5 demoVerifyEnv demoVerifyStore demoVerifySt (by decide) (by decide) (by decide)
      rfl rfl rfl rfl rfl rfl rfl rfl (by decide)).2.2.1⟩

/-! ### States preservation through the Cleanup groups -/

theorem andThen_states {r : BodyResult} {f : Ctx → BodyResult} {s : States}
    (h1 : (r.1).states = s) (h2 : ∀ c, c.states = s → ((f c).1).states = s) :
    ((r.andThen f).1).states = s := by
  obtain ⟨c, msg⟩ := r
  cases msg with
  | none => exact h2 c h1
  | some m => exact h1

theorem reportsGroup_states (env : CleanupEnv) (c : Ctx) :
    ((reportsGroup env c).1).states = c.states := by
  rw [reportsGroup]
  refine andThen_states (by rw [stepThrow_fst]; rfl) fun c1 h1 => ?_
  refine andThen_states (by rw [stepThrow_fst]; exact h1) fun c2 h2 => ?_
  refine andThen_states (by rw [stepThrow_fst]; exact h2) fun c3 h3 => ?_
  refine andThen_states (by rw [stepThrow_fst]; exact h3) fun c4 h4 => ?_
  refine andThen_states (by rw [stepThrow_fst]; exact h4) fun c5 h5 => ?_
  by_cases hf : env.reportUploadFailed ≠ [] <;> simp [hf, emit, h5]

theorem actualGroup_states (env : CleanupEnv) (c : Ctx) :
    ((actualGroup env c).1).states = c.states := by
  rw [actualGroup]
  by_cases hg : env.globFound.length > 0
  · simp only [hg, if_true]
    refine andThen_states (by rw [stepThrow_fst]; rfl) fun c1 h1 => ?_
    refine andThen_states (by rw [stepThrow_fst]; exact h1) fun c2 h2 => ?_
    refine andThen_states (by rw [stepThrow_fst]; exact h2) fun c3 h3 => ?_
    by_cases hf : env.actualUploadFailed ≠ [] <;> simp [hf, emit, h3]
  · simp [hg]

theorem releaseGroup_states (env : CleanupEnv) (c : Ctx) :
    ((releaseGroup env c).1).states = c.states := by
  rw [releaseGroup]
  by_cases hg : (containsKey c.states "passed" && containsKey c.states "message" &&
      strStartsWith env.ref "refs/tags/v") = true
  · by_cases h200 : env.releaseStatus = 200 <;> by_cases hup : env.updateStatus = 200 <;>
      simp [hg, h200, hup]
  · simp [hg]

theorem runGroup_states (c : Ctx) (g : Ctx → BodyResult) (w : String)
    (h : ((g c).1).states = c.states) : (runGroup c g w).states = c.states := by
  rw [runGroup]
  rcases hg : g c with ⟨c', msg⟩
  rw [hg] at h
  cases msg with
  | none => exact h
  | some m => exact h

/-! ### Claim C7: idempotent cache save in Cleanup -/

/-- Claim C7: with a computed test key restored, Cleanup's cache-save step
is an exact-hit no-op: when the restored `testCache` equals the restored
`testKey` no save is attempted (no event, and the step itself throws
nothing); in every other case a save under the computed key is attempted. -/
theorem claim_C7 (cenv : CleanupEnv) (store0 : Store) (st : States) (t : PhaseTrace)
    (key : String)
    (hres : restoreStates store0 [] = some st)
    (hrun : cleanupRun cenv store0 = some t)
    (hkey : lookupKey st "testKey" = some (.str key)) :
    (lookupKey st "testCache" = some (.str key) →
      PhaseEvent.cacheSave key ∉ t.events ∧
      (∀ c : Ctx, c.states = st → (cacheGroup cenv c).2 = none)) ∧
    (lookupKey st "testCache" ≠ some (.str key) →
      PhaseEvent.cacheSave key ∈ t.events) := by
  rw [cleanupRun, hres] at hrun
  set c0 : Ctx := { store := store0, states := st } with hc0
  set c1 : Ctx :=
    (if passedGate st then
      runGroup (runGroup c0 (reportsGroup cenv) "Encountered issues generating reports. ")
        (actualGroup cenv) "Encountered issues uploading actual files. "
    else c0) with hc1
  set c2 : Ctx := runGroup c1 (releaseGroup cenv) "Encountered issues updating release. "
    with hc2
  set c3 : Ctx := runGroup c2 (cacheGroup cenv) "Encountered issues saving cache. "
    with hc3
  have hteq : t = ⟨(summaryStep c3 postLabel).events, (summaryStep c3 postLabel).states,
      (summaryStep c3 postLabel).store, (summaryStep c3 postLabel).warnings, false⟩ := by
    simp only [Option.some.injEq] at hrun
    exact hrun.symm
  have hs1 : c1.states = st := by
    rw [hc1]
    by_cases hg : passedGate st
    · simp only [hg, if_true]
      rw [runGroup_states _ _ _ (actualGroup_states cenv _),
        runGroup_states _ _ _ (reportsGroup_states cenv _)]
    · simp [hg, hc0]
  have hs2 : c2.states = st := by
    rw [hc2, runGroup_states _ _ _ (releaseGroup_states cenv _), hs1]
  constructor
  · intro hhit
    have hskipcond : (match lookupKey c2.states "testCache" with
        | some tc => tc == JsVal.str key
        | none => false) = true := by
      rw [hs2, hhit]
      simp
    have hcg : cacheGroup cenv c2 = (c2, none) := by
      rw [cacheGroup, hs2, hkey]
      rw [hs2] at hskipcond
      simp only [hskipcond, if_true]
    constructor
    · have hbenign : ∀ e : PhaseEvent, CleanupBenign e → e ≠ PhaseEvent.cacheSave key := by
        rintro e (⟨s, x, rfl⟩ | ⟨s, rfl⟩ | ⟨m, rfl⟩) <;> simp
      have h2 : ExtendsWith c0 c1 (fun e => e ≠ PhaseEvent.cacheSave key) := by
        rw [hc1]
        by_cases hg : passedGate st
        · simp only [hg, if_true]
          refine extendsWith_trans
            (runGroup c0 (reportsGroup cenv) "Encountered issues generating reports. ") ?_ ?_
          · exact extendsWith_runGroup _ _ _ _ (fun m => by simp)
              (extendsWith_reportsGroup _ _ _ hbenign)
          · exact extendsWith_runGroup _ _ _ _ (fun m => by simp)
              (extendsWith_actualGroup _ _ _ hbenign)
        · simp only [hg, if_false]
          exact extendsWith_refl _ _
      have h3 : ExtendsWith c1 c2 (fun e => e ≠ PhaseEvent.cacheSave key) := by
        rw [hc2]
        exact extendsWith_runGroup _ _ _ _ (fun m => by simp)
          (extendsWith_releaseGroup cenv _ _)
      have hc3eq : c3 = c2 := by
        rw [hc3, runGroup, hcg]
      have hall := extendsWith_trans _ h2 h3
      have hnotin := not_mem_of_extendsWith (PhaseEvent.cacheSave key) hall (by simp) (by rw [hc0]; simp)
      rw [hteq]
      simp only [summaryStep, emit, PhaseTrace.events]
      rw [hc3eq]
      intro hmem
      rcases List.mem_append.mp hmem with h | h
      · exact hnotin h
      · simp at h
    · intro c hcst
      rw [cacheGroup, hcst, hkey]
      have : (match lookupKey st "testCache" with
          | some tc => tc == JsVal.str key
          | none => false) = true := by
        rw [hhit]
        simp
      simp only [this, if_true]
  · intro hmiss
    have hskipcond : (match lookupKey c2.states "testCache" with
        | some tc => tc == JsVal.str key
        | none => false) = false := by
      rw [hs2]
      rcases htc : lookupKey st "testCache" with _ | tc
      · rfl
      · have : tc ≠ JsVal.str key := fun h => hmiss (by rw [htc, h])
        simpa using this
    have hmemc3 : PhaseEvent.cacheSave key ∈ c3.events := by
      rw [hc3]
      refine mem_runGroup _ _ _ _ ?_
      rw [cacheGroup, hs2, hkey]
      rw [hs2] at hskipcond
      simp only [hskipcond, if_false]
      rcases cenv.saveCacheResult with m | n <;>
        simp [emit, jsDisplay]
    rw [hteq]
    exact mem_summaryStep _ postLabel _ hmemc3

/-- Witness for C7: an exact-hit store skips the save, and a stale-cache
store attempts it, on concrete Cleanup runs. -/
theorem claim_C7_witness :
    (∀ t, cleanupRun demoCleanupEnv
        (saveStates (strStates [("testKey", "project-tests-abc"),
          ("testCache", "project-tests-abc")]) []) = some t →
      PhaseEvent.cacheSave "project-tests-abc" ∉ t.events) ∧
    (∀ t, cleanupRun demoCleanupEnv
        (saveStates (strStates [("testKey", "project-tests-abc"),
          ("testCache", "project-tests-old")]) []) = some t →
      PhaseEvent.cacheSave "project-tests-abc" ∈ t.events) :=
  ⟨fun t ht => ((claim_C7 demoCleanupEnv
      (saveStates (strStates [("testKey", "project-tests-abc"),
        ("testCache", "project-tests-abc")]) [])
      (strStates [("testKey", "project-tests-abc"), ("testCache", "project-tests-abc")])
      t "project-tests-abc" (by decide) ht (by decide)).1 (by decide)).1,
   fun t ht => (claim_C7 demoCleanupEnv
      (saveStates (strStates [("testKey", "project-tests-abc"),
        ("testCache", "project-tests-old")]) [])
      (strStates [("testKey", "project-tests-abc"), ("testCache", "project-tests-old")])
      t "project-tests-abc" (by decide) ht (by decide)).2 (by decide)⟩

/-! ### Claim C2: warning count across phases -/

/-- Claim C2 (amended): the warning counter is the in-process module counter
`exports.warnings`, initialized to 0 when each phase process loads the
module; after n recordWarning calls within one process it reads n. Each
phase's summary reads exactly its own process's count: a nominal Setup run
summarizes 1 exactly when the cache-restore result was falsy (its only
warning site) and 0 otherwise, and Cleanup's summary reads Cleanup's own
count. The count does not survive phase boundaries (showWarning never
touches the durable store; incrementWarnings is never invoked). -/
theorem claim_C2 :
    (∀ n : Nat, (showWarning^[n] moduleInit).warnings = n) ∧
    (∀ (senv : SetupEnv) (store0 : Store) (pv : JsVal) (sha : String),
      parseProject (versionOf senv.ref) senv.projectInput = .ok pv →
      senv.commits = .ok sha →
      senv.mainCloneExit = 0 → senv.mainLsExit = 0 → senv.statusExit = 0 →
      senv.pullExit = 0 → senv.testCloneExit = 0 → senv.testLsExit = 0 →
      senv.dirLsExit = 0 →
      (setupRun senv store0).warnings = (if jsFalsyCache senv.cacheResult then 1 else 0) ∧
      PhaseEvent.summary preLabel (setupRun senv store0).warnings ∈
        (setupRun senv store0).events) ∧
    (∀ (cenv : CleanupEnv) (store0 : Store) (t : PhaseTrace),
      cleanupRun cenv store0 = some t →
      PhaseEvent.summary postLabel t.warnings ∈ t.events) := by
  refine ⟨fun n => ?_, fun senv store0 pv sha hpv hsha e1 e2 e3 e4 e5 e6 e7 => ?_,
    fun cenv store0 t ht => ?_⟩
  · induction n with
    | zero => rfl
    | succ n ih => rw [Function.iterate_succ_apply', showWarning, ih]
  · have hkne := testKey_ne_empty sha
    have hkne2 : ¬("" = testDir ++ "-" ++ sha) := fun h => hkne h.symm
    rcases hc : senv.cacheResult with _ | s
    · constructor <;>
        simp [setupRun, setupBody, hpv, hsha, e1, e2, e3, e4, e5, e6, e7, hc, stepThrow,
          execStep, checkExec, BodyResult.andThen, emit, warnStep, saveStep, summaryStep,
          jsFalsyCache, hkne, hkne2]
    · by_cases hs : s = ""
      · subst hs
        constructor <;>
          simp [setupRun, setupBody, hpv, hsha, e1, e2, e3, e4, e5, e6, e7, hc, stepThrow,
            execStep, checkExec, BodyResult.andThen, emit, warnStep, saveStep, summaryStep,
            jsFalsyCache, hkne, hkne2]
      · by_cases hk : s = testDir ++ "-" ++ sha <;>
          constructor <;>
          simp [setupRun, setupBody, hpv, hsha, e1, e2, e3, e4, e5, e6, e7, hc, hs, hk,
            stepThrow, execStep, checkExec, BodyResult.andThen, emit, warnStep, saveStep,
            summaryStep, jsFalsyCache, hkne, hkne2]
  · rcases hres : restoreStates store0 [] with _ | st
    · rw [cleanupRun, hres] at ht
      simp at ht
    · rw [cleanupRun, hres] at ht
      simp only [Option.some.injEq] at ht
      subst ht
      simp [summaryStep, emit]

/-- Counterexample for C2 as frozen: a run with exactly one warning (a cold
cache during Setup) and none afterwards; Cleanup's summary reads its own
process counter, 0, not the run total 1, because `exports.warnings` does not
survive the phase-process boundary. -/
theorem claim_C2_counterexample :
    (setupRun { demoSetupEnv with cacheResult := none } []).warnings = 1 ∧
    (verifyRun { demoVerifyEnv with verifyExit := 0 }
        (setupRun { demoSetupEnv with cacheResult := none } []).store).warnings = 0 ∧
    (cleanupRun demoCleanupEnv
        (verifyRun { demoVerifyEnv with verifyExit := 0 }
          (setupRun { demoSetupEnv with cacheResult := none } []).store).store).map
      PhaseTrace.warnings = some 0 ∧
    (cleanupRun demoCleanupEnv
        (verifyRun { demoVerifyEnv with verifyExit := 0 }
          (setupRun { demoSetupEnv with cacheResult := none } []).store).store).map
      (fun t => t.events.contains (PhaseEvent.summary postLabel 0)) = some true := by
  refine ⟨by decide, by decide, by decide, by decide⟩

/-- Witness for C2: the per-process counting facts applied at n = 3, at a
concrete cold-cache Setup run and at a concrete Cleanup run. -/
theorem claim_C2_witness :
    (showWarning^[3] moduleInit).warnings = 3 ∧
    (setupRun { demoSetupEnv with cacheResult := none } []).warnings = 1 ∧
    (∀ t, cleanupRun demoCleanupEnv [] = some t →
      PhaseEvent.summary postLabel t.warnings ∈ t.events) :=
  ⟨claim_C2.1 3,
   (claim_C2.2.1 { demoSetupEnv with cacheResult := none } [] (JsVal.num 1) "abc123"
      rfl rfl rfl rfl rfl rfl rfl rfl rfl).1,
   fun t ht => claim_C2.2.2 demoCleanupEnv [] t ht⟩

end ActionTest
